import Mathlib

/-!
# A shallow embedding of the RakNet `ReplicaManager` plug-in

This development embeds the replica-management subsystem declared in
`src/RakNet/ReplicaManager.h`.  The repository ships only the header: the
data structures (`CommandStruct`, `RegisteredReplica`, `RemoteObject`,
`ParticipantStruct`, the command-bit enum, the three `OrderedList` members)
and extensive doc comments are in the header, while the bodies of
`Construct`, `Destruct`, `SetScope`, `SignalSerializeNeeded`,
`ReferencePointer`, `DereferencePointer`, `AddParticipant`,
`RemoveParticipant` and `OnUpdate` live in a `.cpp` file that is not part
of the repository.  Where a body is missing it is modelled from the
specification (each such definition carries a doc comment beginning
`Modelled from the spec:`); the header remains authoritative for the data
layout, the enum values, and the ordering of the internal lists
("Sorted list of Replica*, sorted by pointer").

Replica pointers (`Replica *`) are embedded as natural numbers (the
pointer value), `PlayerID` as a natural number with `0` playing the role
of `UNASSIGNED_PLAYER_ID`, and the `unsigned char` command bitmask as a
`Nat` kept below `2^5` (only the five flags of the header's enum exist).
User-side `Replica` virtual methods (`GetNetworkID`, `SendConstruction`,
`SendScopeChange`, `Serialize`) are an environment of functions; the
observable behaviour of a call or of one update tick is a list of events
(wire records sent and capability callbacks invoked).
-/

/-- A `Replica *`: the opaque handle of a user object (the pointer value). -/
abbrev Handle := Nat

/-- A `PlayerID`. -/
abbrev PlayerId := Nat

/-- `UNASSIGNED_PLAYER_ID`: the sentinel player id; no connected participant
carries it. -/
def UNASSIGNED_PLAYER_ID : PlayerId := 0

/-! ## Command bits (`ReplicaManager.h`, lines 231-238) -/

/-- `REPLICA_EXPLICIT_CONSTRUCTION = 1 << 0`. -/
def REPLICA_EXPLICIT_CONSTRUCTION : Nat := 1

/-- `REPLICA_IMPLICIT_CONSTRUCTION = 1 << 1`; overridden by
`REPLICA_EXPLICIT_CONSTRUCTION`. -/
def REPLICA_IMPLICIT_CONSTRUCTION : Nat := 2

/-- `REPLICA_SCOPE_TRUE = 1 << 2`; mutually exclusive with
`REPLICA_SCOPE_FALSE`. -/
def REPLICA_SCOPE_TRUE : Nat := 4

/-- `REPLICA_SCOPE_FALSE = 1 << 3`; mutually exclusive with
`REPLICA_SCOPE_TRUE`. -/
def REPLICA_SCOPE_FALSE : Nat := 8

/-- `REPLICA_SERIALIZE = 1 << 4`. -/
def REPLICA_SERIALIZE : Nat := 16

/-! ## Replica interface flags

Modelled from the spec: the header includes `ReplicaEnums.h`, which is not
in the repository.  The spec lists the allowed-interface bitmask as
"{send-construction, receive-construction, send-destruction,
receive-destruction, send-scope, receive-scope, serialize, deserialize}
— default all enabled"; bits are assigned in that order. -/

def REPLICA_SEND_CONSTRUCTION : Nat := 1
def REPLICA_RECEIVE_CONSTRUCTION : Nat := 2
def REPLICA_SEND_DESTRUCTION : Nat := 4
def REPLICA_RECEIVE_DESTRUCTION : Nat := 8
def REPLICA_SEND_SCOPE_CHANGE : Nat := 16
def REPLICA_RECEIVE_SCOPE_CHANGE : Nat := 32
def REPLICA_SEND_SERIALIZE : Nat := 64
def REPLICA_RECEIVE_SERIALIZE : Nat := 128

/-- `REPLICA_SET_ALL`: all interface functions enabled (the default). -/
def REPLICA_SET_ALL : Nat := 255

/-! ## The header's structures -/

/-- `ReplicaManager::CommandStruct`: one pointer and a command (a bitwise OR
of the `REPLICA_*` command bits) to act on that pointer. -/
structure CommandStruct where
  replica : Handle
  command : Nat
  deriving DecidableEq, Repr

/-- `ReplicaManager::RegisteredReplica`: one record of the global registry
`replicatedObjects`. -/
structure RegisteredReplica where
  replica : Handle
  lastDeserializeTrue : Nat
  allowedInterfaces : Nat
  deriving DecidableEq, Repr

/-- `ReplicaManager::RemoteObject`: one record of a participant's
`remoteObjectList` (the mirror of what the remote system possesses). -/
structure RemoteObject where
  replica : Handle
  inScope : Bool
  lastSendTime : Nat
  deriving DecidableEq, Repr

/-- `ReplicaManager::ParticipantStruct`: one remote system.  The received
queue (`pendingCommands`) is processed against inbound wire records by
`processInbound` below and is not threaded through the outbound state. -/
structure ParticipantStruct where
  playerId : PlayerId
  callDownloadCompleteCB : Bool
  commandList : List CommandStruct
  remoteObjectList : List RemoteObject
  deriving DecidableEq, Repr

/-- The `ReplicaManager` plug-in state: the global registry, the participant
table, and the configuration surface. -/
structure ReplicaManager where
  replicatedObjects : List RegisteredReplica
  participantList : List ParticipantStruct
  autoParticipateNewConnections : Bool
  autoConstructToNewParticipants : Bool
  defaultScope : Bool
  sendChannel : Nat
  deriving DecidableEq, Repr

/-- The constructor-time state: empty lists, all configuration defaults per
the header (`autoAdd` false, auto-construct false, default scope false,
channel 0). -/
def initialReplicaManager : ReplicaManager :=
  { replicatedObjects := []
    participantList := []
    autoParticipateNewConnections := false
    autoConstructToNewParticipants := false
    defaultScope := false
    sendChannel := 0 }

/-! ## The user-side replica capabilities

Modelled from the spec: `Replica` (declared in `Replica.h`, not in the
repository) exposes `GetNetworkID`, `SendConstruction`, `SendScopeChange`
and `Serialize`; the manager only observes whether a capability wrote to
the output bitstream, and which network id the object carries. -/
structure ReplicaEnv where
  networkId : Handle → Option Nat
  sendConstructionWrites : Handle → Bool
  sendScopeChangeWrites : Handle → Bool
  serializeWrites : Handle → Bool

/-! ## Observable events -/

/-- The tag of an observable event: either a wire record handed to the
transport (`wire*`, per spec §6.3 the tags are CONSTRUCT, DESTRUCT,
SCOPE_CHANGE, SERIALIZE, DOWNLOAD_COMPLETE) or an invocation of a replica
capability / user callback (`call*`). -/
inductive EvTag where
  | wireConstruct
  | wireDestruct
  | wireScopeChange
  | wireSerialize
  | wireDownloadComplete
  | callSendConstruction
  | callSendDestruction
  | callSendScopeChangeTrue
  | callSendScopeChangeFalse
  | callSerialize
  | callReceiveConstruction
  | callSendDownloadComplete
  deriving DecidableEq, Repr

/-- One observable event: the tag, the replica handle it concerns (for
inbound `callReceiveConstruction` the wire network id, since the receiver
has no handle yet; `0` for download-complete events), the network id
carried on the wire (`0` when not applicable), and the participant the
event is addressed to / received from. -/
structure Event where
  tag : EvTag
  handle : Handle
  nid : Nat
  player : PlayerId
  deriving DecidableEq, Repr

/-! ## Ordered-list primitives

The header stores `commandList`, `remoteObjectList`, `replicatedObjects`
and `participantList` in `DataStructures::OrderedList`, sorted by the key
(`Replica *` pointer, or `PlayerID`); `DS_OrderedList.h` is not in the
repository, so the sorted-unique-key semantics follows the header's
comments ("Sorted list of Replica*, sorted by pointer.  Ordering is just
for fast lookup"). -/

/-- Look up the queued command record for a handle. -/
def cmdLookup (h : Handle) : List CommandStruct → Option CommandStruct
  | [] => none
  | c :: rest => if c.replica = h then some c else cmdLookup h rest

/-- Merge freshly requested command bits into already queued bits.
Modelled from the spec: enqueue merges by bitwise OR, then applies the
overrides of §4.4: a newly set SCOPE_FALSE clears SCOPE_TRUE and
symmetrically, and EXPLICIT_CONSTRUCTION clears IMPLICIT_CONSTRUCTION. -/
def mergeCommand (oldBits newBits : Nat) : Nat :=
  let m := oldBits ||| newBits
  let m := if newBits &&& REPLICA_SCOPE_FALSE ≠ 0 then m &&& (31 ^^^ REPLICA_SCOPE_TRUE) else m
  let m := if newBits &&& REPLICA_SCOPE_TRUE ≠ 0 then m &&& (31 ^^^ REPLICA_SCOPE_FALSE) else m
  if m &&& REPLICA_EXPLICIT_CONSTRUCTION ≠ 0 then m &&& (31 ^^^ REPLICA_IMPLICIT_CONSTRUCTION) else m

/-- Enqueue command bits for a handle into a participant's command list:
merge into the existing record if the handle is already queued, otherwise
insert a fresh record at the sorted (by pointer) position. -/
def cmdEnqueue (h : Handle) (bits : Nat) : List CommandStruct → List CommandStruct
  | [] => [⟨h, bits⟩]
  | c :: rest =>
    if h < c.replica then ⟨h, bits⟩ :: c :: rest
    else if h = c.replica then ⟨h, mergeCommand c.command bits⟩ :: rest
    else c :: cmdEnqueue h bits rest

/-- Look up a mirror entry. -/
def roLookup (h : Handle) : List RemoteObject → Option RemoteObject
  | [] => none
  | ro :: rest => if ro.replica = h then some ro else roLookup h rest

/-- Insert a mirror entry at its sorted (by pointer) position.  Only called
when no entry for the handle exists. -/
def roInsert (x : RemoteObject) : List RemoteObject → List RemoteObject
  | [] => [x]
  | ro :: rest =>
    if x.replica ≤ ro.replica then x :: ro :: rest
    else ro :: roInsert x rest

/-- Update the scope flag of the mirror entry for a handle. -/
def roSetScope (h : Handle) (b : Bool) (l : List RemoteObject) : List RemoteObject :=
  l.map fun ro => if ro.replica = h then { ro with inScope := b } else ro

/-- Update the last-send time of the mirror entry for a handle. -/
def roSetLastSend (h : Handle) (t : Nat) (l : List RemoteObject) : List RemoteObject :=
  l.map fun ro => if ro.replica = h then { ro with lastSendTime := t } else ro

/-- Look up the registry record for a handle. -/
def regLookup (h : Handle) : List RegisteredReplica → Option RegisteredReplica
  | [] => none
  | r :: rest => if r.replica = h then some r else regLookup h rest

/-- Place a fresh registry record (all interfaces allowed, per the header:
"All functions enabled by default") at its sorted position. -/
def regPlace (h : Handle) : List RegisteredReplica → List RegisteredReplica
  | [] => [⟨h, 0, REPLICA_SET_ALL⟩]
  | r :: rest =>
    if h < r.replica then ⟨h, 0, REPLICA_SET_ALL⟩ :: r :: rest
    else r :: regPlace h rest

/-- Reference a handle in the registry: a duplicate reference is ignored
(the header: "Duplicate calls are safe and are simply ignored"),
otherwise a fresh record is inserted at its sorted position. -/
def regInsert (h : Handle) (l : List RegisteredReplica) : List RegisteredReplica :=
  match regLookup h l with
  | some _ => l
  | none => regPlace h l

/-- The allowed-interface mask of a handle (all allowed when the handle is
not registered, matching the default). -/
def allowedOf (reg : List RegisteredReplica) (h : Handle) : Nat :=
  match regLookup h reg with
  | some r => r.allowedInterfaces
  | none => REPLICA_SET_ALL

/-- Look up a participant by player id (`GetParticipantByPlayerID`). -/
def partLookup (p : PlayerId) : List ParticipantStruct → Option ParticipantStruct
  | [] => none
  | part :: rest => if part.playerId = p then some part else partLookup p rest

/-- Insert a fresh participant at its sorted (by player id) position. -/
def partInsert (x : ParticipantStruct) : List ParticipantStruct → List ParticipantStruct
  | [] => [x]
  | part :: rest =>
    if x.playerId < part.playerId then x :: part :: rest
    else part :: partInsert x rest

/-! ## User entry points

All bodies below are modelled from the spec (§4.4 table of entry points,
§4.6 destruction and dereference, §4.2 participant table), guided by the
header's doc comments. -/

/-- Does a participant with this player id receive the command?
Modelled from the spec: `broadcast=true` with `pid=unassigned` targets
every participant; `broadcast=true` with a concrete `pid` targets every
participant except that one; `broadcast=false` targets exactly `pid`. -/
def isTarget (pid : PlayerId) (broadcast : Bool) (q : PlayerId) : Bool :=
  if broadcast then q ≠ pid else q = pid

/-- Enqueue command bits for a handle to every targeted participant. -/
def enqueueToTargets (h : Handle) (bits : Nat) (pid : PlayerId) (broadcast : Bool)
    (s : ReplicaManager) : ReplicaManager :=
  { s with participantList := s.participantList.map fun part =>
      if isTarget pid broadcast part.playerId then
        { part with commandList := cmdEnqueue h bits part.commandList }
      else part }

/-- `ReplicaManager::ReferencePointer`.  Modelled from the spec: makes sure
the object is tracked; duplicate calls are ignored; no messages are sent. -/
def ReferencePointer (h : Handle) (s : ReplicaManager) : ReplicaManager :=
  { s with replicatedObjects := regInsert h s.replicatedObjects }

/-- `ReplicaManager::Construct`.  Modelled from the spec: implicitly
references the handle, then enqueues EXPLICIT_CONSTRUCTION — plus
SCOPE_TRUE and SERIALIZE when the default scope is true — to every
targeted participant.  Nothing is sent until the next update cycle. -/
def Construct (h : Handle) (pid : PlayerId) (broadcast : Bool)
    (s : ReplicaManager) : ReplicaManager :=
  let s := ReferencePointer h s
  enqueueToTargets h
    (REPLICA_EXPLICIT_CONSTRUCTION |||
      (if s.defaultScope then REPLICA_SCOPE_TRUE ||| REPLICA_SERIALIZE else 0))
    pid broadcast s

/-- `ReplicaManager::SetScope`.  Modelled from the spec: implicitly
references the handle, then enqueues SCOPE_TRUE or SCOPE_FALSE to every
targeted participant. -/
def SetScope (h : Handle) (inScope : Bool) (pid : PlayerId) (broadcast : Bool)
    (s : ReplicaManager) : ReplicaManager :=
  let s := ReferencePointer h s
  enqueueToTargets h (if inScope then REPLICA_SCOPE_TRUE else REPLICA_SCOPE_FALSE)
    pid broadcast s

/-- `ReplicaManager::SignalSerializeNeeded`.  Modelled from the spec:
implicitly references the handle, then enqueues SERIALIZE to every
targeted participant. -/
def SignalSerializeNeeded (h : Handle) (pid : PlayerId) (broadcast : Bool)
    (s : ReplicaManager) : ReplicaManager :=
  let s := ReferencePointer h s
  enqueueToTargets h REPLICA_SERIALIZE pid broadcast s

/-- Remove every command record naming a handle from a command list. -/
def cmdPurge (h : Handle) (l : List CommandStruct) : List CommandStruct :=
  l.filter fun c => c.replica ≠ h

/-- Remove every mirror entry naming a handle. -/
def roPurge (h : Handle) (l : List RemoteObject) : List RemoteObject :=
  l.filter fun ro => ro.replica ≠ h

/-- Remove every trace of a handle from one participant (queue and mirror). -/
def purgeHandle (h : Handle) (part : ParticipantStruct) : ParticipantStruct :=
  { part with commandList := cmdPurge h part.commandList
              remoteObjectList := roPurge h part.remoteObjectList }

/-- Destruction of a handle at one participant.  Modelled from the spec:
purge the queued record entirely for this (participant, handle), emit a
`send-destruction` invocation and a destruction wire record when the
mirror entry exists, then remove the mirror entry; when no mirror entry
exists nothing is emitted. -/
def destructAtParticipant (env : ReplicaEnv) (h : Handle) (part : ParticipantStruct) :
    ParticipantStruct × List Event :=
  let part' := { part with commandList := cmdPurge h part.commandList }
  match roLookup h part.remoteObjectList with
  | some _ =>
    ({ part' with remoteObjectList := roPurge h part'.remoteObjectList },
      [⟨.callSendDestruction, h, (env.networkId h).getD 0, part.playerId⟩,
       ⟨.wireDestruct, h, (env.networkId h).getD 0, part.playerId⟩])
  | none => (part', [])

/-- `ReplicaManager::Destruct`.  Modelled from the spec: an immediate
action (not a queued bit).  Per the header, the call fails with no
pointer reference (a handle absent from the registry is ignored), and
calling it with `playerId==UNASSIGNED_PLAYER_ID` and `broadcast` true is
equivalent to calling `DereferencePointer` except that the destruct
packet is also sent — in that case the registry record is removed too. -/
def Destruct (env : ReplicaEnv) (h : Handle) (pid : PlayerId) (broadcast : Bool)
    (s : ReplicaManager) : ReplicaManager × List Event :=
  match regLookup h s.replicatedObjects with
  | none => (s, [])
  | some _ =>
    let results := s.participantList.map fun part =>
      if isTarget pid broadcast part.playerId then destructAtParticipant env h part
      else (part, [])
    let s' := { s with participantList := results.map Prod.fst }
    let s' :=
      if pid = UNASSIGNED_PLAYER_ID ∧ broadcast then
        { s' with replicatedObjects := s'.replicatedObjects.filter fun r => r.replica ≠ h }
      else s'
    (s', (results.map Prod.snd).flatten)

/-- `ReplicaManager::DereferencePointer`.  Modelled from the spec: locally
removes all references to this pointer — the registry record and every
per-participant command record and mirror entry — and sends no messages
(the returned event list is always empty). -/
def DereferencePointer (h : Handle) (s : ReplicaManager) :
    ReplicaManager × List Event :=
  ({ s with replicatedObjects := s.replicatedObjects.filter fun r => r.replica ≠ h
            participantList := s.participantList.map (purgeHandle h) },
   [])

/-- `ReplicaManager::AddParticipant`.  Modelled from the spec: idempotent;
creates a participant with an empty mirror and queue and
`callDownloadCompleteCB` pending; when auto-construct-to-new-participants
is enabled, enqueues an EXPLICIT_CONSTRUCTION for every registered
replica.  The sentinel `UNASSIGNED_PLAYER_ID` never names a participant. -/
def AddParticipant (pid : PlayerId) (s : ReplicaManager) : ReplicaManager :=
  if pid = UNASSIGNED_PLAYER_ID then s
  else match partLookup pid s.participantList with
  | some _ => s
  | none =>
    let cl :=
      if s.autoConstructToNewParticipants then
        s.replicatedObjects.foldl
          (fun acc r => cmdEnqueue r.replica REPLICA_EXPLICIT_CONSTRUCTION acc) []
      else []
    { s with participantList :=
        partInsert ⟨pid, true, cl, []⟩ s.participantList }

/-- `ReplicaManager::RemoveParticipant`.  Modelled from the spec: frees the
participant's mirror, command queue and received queue; no messages for
that participant are produced thereafter. -/
def RemoveParticipant (pid : PlayerId) (s : ReplicaManager) : ReplicaManager :=
  { s with participantList := s.participantList.filter fun part => part.playerId ≠ pid }

/-- `ReplicaManager::EnableReplicaInterfaces`.  Modelled from the spec:
sets interface-mask bits of a registered handle. -/
def EnableReplicaInterfaces (h : Handle) (mask : Nat) (s : ReplicaManager) : ReplicaManager :=
  { s with replicatedObjects := s.replicatedObjects.map fun r =>
      if r.replica = h then { r with allowedInterfaces := r.allowedInterfaces ||| mask } else r }

/-- `ReplicaManager::DisableReplicaInterfaces`.  Modelled from the spec:
clears interface-mask bits of a registered handle. -/
def DisableReplicaInterfaces (h : Handle) (mask : Nat) (s : ReplicaManager) : ReplicaManager :=
  { s with replicatedObjects := s.replicatedObjects.map fun r =>
      if r.replica = h then { r with allowedInterfaces := r.allowedInterfaces &&& (255 ^^^ mask) } else r }

/-! ## Dispatch of one queued command (spec §4.6)

Modelled from the spec: for one (participant, handle) record the tick
resolves identity, then runs construct, scope change and serialize in
that fixed sub-order, retiring the bits that succeeded.  Each stage is a
separate definition so that theorems can speak about the state at the
moment of dispatch. -/

/-- The result of one dispatch stage: the remaining command bits, the
updated mirror, and the events emitted. -/
structure StepRes where
  bits : Nat
  mirror : List RemoteObject
  evs : List Event
  deriving DecidableEq, Repr

/-- Stage 2, construct: if a mirror entry already exists the construct bits
are skipped as a duplicate; otherwise EXPLICIT invokes `SendConstruction`
(declining cancels just the construct bits), inserts the mirror entry with
the default scope and emits a CONSTRUCT wire record, while IMPLICIT only
inserts the mirror entry with scope false. -/
def constructStep (env : ReplicaEnv) (ds : Bool) (time : Nat) (allowed : Nat)
    (p : PlayerId) (h : Handle) (nid : Nat) (bits : Nat)
    (m : List RemoteObject) : StepRes :=
  if bits &&& (REPLICA_EXPLICIT_CONSTRUCTION ||| REPLICA_IMPLICIT_CONSTRUCTION) ≠ 0 then
    match roLookup h m with
    | some _ => ⟨bits &&& (31 ^^^ (REPLICA_EXPLICIT_CONSTRUCTION ||| REPLICA_IMPLICIT_CONSTRUCTION)), m, []⟩
    | none =>
      if bits &&& REPLICA_EXPLICIT_CONSTRUCTION ≠ 0 then
        if allowed &&& REPLICA_SEND_CONSTRUCTION ≠ 0 then
          if env.sendConstructionWrites h then
            ⟨bits &&& (31 ^^^ (REPLICA_EXPLICIT_CONSTRUCTION ||| REPLICA_IMPLICIT_CONSTRUCTION)),
              roInsert ⟨h, ds, time⟩ m,
              [⟨.callSendConstruction, h, nid, p⟩, ⟨.wireConstruct, h, nid, p⟩]⟩
          else
            ⟨bits &&& (31 ^^^ (REPLICA_EXPLICIT_CONSTRUCTION ||| REPLICA_IMPLICIT_CONSTRUCTION)), m,
              [⟨.callSendConstruction, h, nid, p⟩]⟩
        else
          ⟨bits &&& (31 ^^^ (REPLICA_EXPLICIT_CONSTRUCTION ||| REPLICA_IMPLICIT_CONSTRUCTION)), m, []⟩
      else
        ⟨bits &&& (31 ^^^ (REPLICA_EXPLICIT_CONSTRUCTION ||| REPLICA_IMPLICIT_CONSTRUCTION)),
          roInsert ⟨h, false, time⟩ m, []⟩
  else ⟨bits, m, []⟩

/-- Stage 3, scope change: requires a mirror entry (otherwise the bits stay
queued); with the interface allowed, invokes `SendScopeChange`; if it
writes, updates the mirror's scope flag, emits a SCOPE_CHANGE wire record
and — when the new scope is true — implicitly sets SERIALIZE on the
record so an initial state push follows in the same tick. -/
def scopeStep (env : ReplicaEnv) (allowed : Nat) (p : PlayerId) (h : Handle)
    (nid : Nat) (bits : Nat) (m : List RemoteObject) : StepRes :=
  if bits &&& (REPLICA_SCOPE_TRUE ||| REPLICA_SCOPE_FALSE) ≠ 0 then
    match roLookup h m with
    | none => ⟨bits, m, []⟩
    | some _ =>
      let newScope : Bool := bits &&& REPLICA_SCOPE_TRUE ≠ 0
      if allowed &&& REPLICA_SEND_SCOPE_CHANGE ≠ 0 then
        if env.sendScopeChangeWrites h then
          ⟨(bits &&& (31 ^^^ (REPLICA_SCOPE_TRUE ||| REPLICA_SCOPE_FALSE))) |||
              (if newScope then REPLICA_SERIALIZE else 0),
            roSetScope h newScope m,
            [⟨if newScope then .callSendScopeChangeTrue else .callSendScopeChangeFalse, h, nid, p⟩,
             ⟨.wireScopeChange, h, nid, p⟩]⟩
        else
          ⟨bits &&& (31 ^^^ (REPLICA_SCOPE_TRUE ||| REPLICA_SCOPE_FALSE)), m,
            [⟨if newScope then .callSendScopeChangeTrue else .callSendScopeChangeFalse, h, nid, p⟩]⟩
      else
        ⟨bits &&& (31 ^^^ (REPLICA_SCOPE_TRUE ||| REPLICA_SCOPE_FALSE)), m, []⟩
  else ⟨bits, m, []⟩

/-- Stage 4, serialize: requires a mirror entry whose `inScope` is true
(otherwise the bit stays queued) and the serialize interface allowed (a
disabled interface clears the bit so it does not loop); invokes
`Serialize`; if it writes, emits a SERIALIZE wire record and updates the
mirror's last-send time. -/
def serializeStep (env : ReplicaEnv) (time : Nat) (allowed : Nat) (p : PlayerId)
    (h : Handle) (nid : Nat) (bits : Nat) (m : List RemoteObject) : StepRes :=
  if bits &&& REPLICA_SERIALIZE ≠ 0 then
    match roLookup h m with
    | none => ⟨bits, m, []⟩
    | some ro =>
      if allowed &&& REPLICA_SEND_SERIALIZE = 0 then
        ⟨bits &&& (31 ^^^ REPLICA_SERIALIZE), m, []⟩
      else if ro.inScope then
        if env.serializeWrites h then
          ⟨bits &&& (31 ^^^ REPLICA_SERIALIZE), roSetLastSend h time m,
            [⟨.callSerialize, h, nid, p⟩, ⟨.wireSerialize, h, nid, p⟩]⟩
        else
          ⟨bits &&& (31 ^^^ REPLICA_SERIALIZE), m, [⟨.callSerialize, h, nid, p⟩]⟩
      else ⟨bits, m, []⟩
  else ⟨bits, m, []⟩

/-- Dispatch of one queued command record during the tick: stage 1 resolves
identity (no network id yet means the whole record is skipped and retried
next tick), then construct, scope change and serialize run in the fixed
sub-order. -/
def dispatchCommand (env : ReplicaEnv) (ds : Bool) (time : Nat) (allowed : Nat)
    (p : PlayerId) (c : CommandStruct) (m : List RemoteObject) : StepRes :=
  match env.networkId c.replica with
  | none => ⟨c.command, m, []⟩
  | some nid =>
    let r1 := constructStep env ds time allowed p c.replica nid c.command m
    let r2 := scopeStep env allowed p c.replica nid r1.bits r1.mirror
    let r3 := serializeStep env time allowed p c.replica nid r2.bits r2.mirror
    ⟨r3.bits, r3.mirror, r1.evs ++ (r2.evs ++ r3.evs)⟩

/-- The result of walking one participant's command queue. -/
structure ListRes where
  cmds : List CommandStruct
  mirror : List RemoteObject
  evs : List Event
  deriving DecidableEq, Repr

/-- Walk a command queue in list order, dispatching each record and keeping
the records whose bits did not all retire. -/
def dispatchList (env : ReplicaEnv) (ds : Bool) (time : Nat)
    (reg : List RegisteredReplica) (p : PlayerId) :
    List CommandStruct → List RemoteObject → ListRes
  | [], m => ⟨[], m, []⟩
  | c :: rest, m =>
    let r := dispatchCommand env ds time (allowedOf reg c.replica) p c m
    let res := dispatchList env ds time reg p rest r.mirror
    ⟨(if r.bits = 0 then res.cmds else ⟨c.replica, r.bits⟩ :: res.cmds),
      res.mirror, r.evs ++ res.evs⟩

/-- Does a record still carry construction bits? -/
def hasConstructionBits (c : CommandStruct) : Bool :=
  c.command &&& (REPLICA_EXPLICIT_CONSTRUCTION ||| REPLICA_IMPLICIT_CONSTRUCTION) ≠ 0

/-- One participant's share of the update tick: walk the command queue,
then — if the download-complete callback is still pending and no
construction work remains queued — clear the flag, invoke the
send-download-complete callback and transmit a DOWNLOAD_COMPLETE record. -/
def participantTick (env : ReplicaEnv) (ds : Bool) (time : Nat)
    (reg : List RegisteredReplica) (part : ParticipantStruct) :
    ParticipantStruct × List Event :=
  let r := dispatchList env ds time reg part.playerId part.commandList part.remoteObjectList
  let part' := { part with commandList := r.cmds, remoteObjectList := r.mirror }
  if part'.callDownloadCompleteCB ∧ ¬ r.cmds.any hasConstructionBits then
    ({ part' with callDownloadCompleteCB := false },
      r.evs ++ [⟨.callSendDownloadComplete, 0, 0, part.playerId⟩,
                ⟨.wireDownloadComplete, 0, 0, part.playerId⟩])
  else (part', r.evs)

/-- `ReplicaManager::OnUpdate`: one update tick.  Modelled from the spec:
for each participant in table order, walk the command queue and apply the
dispatch rules; records that remain non-empty stay enqueued; finally the
pending download-complete notification fires for participants whose
construction work drained. -/
def OnUpdate (env : ReplicaEnv) (time : Nat) (s : ReplicaManager) :
    ReplicaManager × List Event :=
  let results := s.participantList.map (participantTick env s.defaultScope time s.replicatedObjects)
  ({ s with participantList := results.map Prod.fst },
    (results.map Prod.snd).flatten)

/-! ## Inbound processing (receiver side)

Modelled from the spec: decoded inbound records are processed during the
receiver's tick; a CONSTRUCT record whose network id is already known is
ignored (header: "Replicate packets that are sent to systems that already
have this NetworkID are ignored"), otherwise the user's
receive-construction callback is invoked once and the id becomes known. -/
def processInbound (known : List Nat) : List Event → List Nat × List Event
  | [] => (known, [])
  | e :: rest =>
    if e.tag = .wireConstruct then
      if e.nid ∈ known then processInbound known rest
      else
        let r := processInbound (e.nid :: known) rest
        (r.1, ⟨.callReceiveConstruction, e.nid, e.nid, e.player⟩ :: r.2)
    else processInbound known rest

/-! ## Traces of user calls -/

/-- One user-level action on the manager: a public API call, a transport
lifecycle notification (participant add or remove), a configuration
change, or one update tick.  Actions that consult the user object's
capabilities carry the capability environment (the user may assign
network ids between actions, so each tick carries its own). -/
inductive UserCall where
  | construct (h : Handle) (pid : PlayerId) (broadcast : Bool)
  | setScope (h : Handle) (inScope : Bool) (pid : PlayerId) (broadcast : Bool)
  | signalSerialize (h : Handle) (pid : PlayerId) (broadcast : Bool)
  | destruct (env : ReplicaEnv) (h : Handle) (pid : PlayerId) (broadcast : Bool)
  | reference (h : Handle)
  | dereference (h : Handle)
  | addParticipant (pid : PlayerId)
  | removeParticipant (pid : PlayerId)
  | setDefaultScope (b : Bool)
  | setAutoConstruct (b : Bool)
  | enableInterfaces (h : Handle) (mask : Nat)
  | disableInterfaces (h : Handle) (mask : Nat)
  | tick (env : ReplicaEnv) (time : Nat)

/-- Apply one user call to the manager state (dropping emitted events). -/
def applyCall (s : ReplicaManager) : UserCall → ReplicaManager
  | .construct h pid b => Construct h pid b s
  | .setScope h sc pid b => SetScope h sc pid b s
  | .signalSerialize h pid b => SignalSerializeNeeded h pid b s
  | .destruct env h pid b => (Destruct env h pid b s).1
  | .reference h => ReferencePointer h s
  | .dereference h => (DereferencePointer h s).1
  | .addParticipant pid => AddParticipant pid s
  | .removeParticipant pid => RemoveParticipant pid s
  | .setDefaultScope b => { s with defaultScope := b }
  | .setAutoConstruct b => { s with autoConstructToNewParticipants := b }
  | .enableInterfaces h mask => EnableReplicaInterfaces h mask s
  | .disableInterfaces h mask => DisableReplicaInterfaces h mask s
  | .tick env time => (OnUpdate env time s).1

/-- Run a sequence of user calls from a starting state. -/
def run (calls : List UserCall) (s : ReplicaManager) : ReplicaManager :=
  calls.foldl applyCall s

/-! ## Well-formedness

The structural invariant maintained by every operation: participant ids
are strictly sorted (hence unique) and never the sentinel, each command
queue is strictly sorted by handle (hence has at most one record per
handle, the header's ordered-set semantics), and every queued bitmask
fits the five flags with the two scope bits never both set. -/

/-- A queued bitmask is well formed: it fits in five bits and does not
carry both scope bits. -/
def goodBits (b : Nat) : Prop :=
  b < 32 ∧ ¬(b &&& REPLICA_SCOPE_TRUE ≠ 0 ∧ b &&& REPLICA_SCOPE_FALSE ≠ 0)

instance (b : Nat) : Decidable (goodBits b) := by unfold goodBits; infer_instance

/-- Well-formedness of one participant record. -/
def WFpart (part : ParticipantStruct) : Prop :=
  part.playerId ≠ UNASSIGNED_PLAYER_ID ∧
  (part.commandList.map CommandStruct.replica).Pairwise (· < ·) ∧
  ∀ c ∈ part.commandList, goodBits c.command

instance (part : ParticipantStruct) : Decidable (WFpart part) := by
  unfold WFpart; infer_instance

/-- Well-formedness of the manager state. -/
def WF (s : ReplicaManager) : Prop :=
  (s.participantList.map ParticipantStruct.playerId).Pairwise (· < ·) ∧
  ∀ part ∈ s.participantList, WFpart part

instance (s : ReplicaManager) : Decidable (WF s) := by unfold WF; infer_instance

/-- The bit patterns that user entry points enqueue: EXPLICIT_CONSTRUCTION
(possibly with SCOPE_TRUE and SERIALIZE under default scope), one of the
scope bits, or SERIALIZE. -/
def entryBits (b : Nat) : Prop :=
  b = 1 ∨ b = 4 ∨ b = 8 ∨ b = 16 ∨ b = 21

lemma goodBits_of_entryBits {b : Nat} (hb : entryBits b) : goodBits b := by
  rcases hb with h | h | h | h | h <;> subst h <;> decide

lemma mergeCommand_goodBits {old new : Nat} (hold : goodBits old)
    (hnew : entryBits new) : goodBits (mergeCommand old new) := by
  have key : ∀ o, o < 32 → ¬(o &&& REPLICA_SCOPE_TRUE ≠ 0 ∧ o &&& REPLICA_SCOPE_FALSE ≠ 0) →
      goodBits (mergeCommand o 1) ∧ goodBits (mergeCommand o 4) ∧
      goodBits (mergeCommand o 8) ∧ goodBits (mergeCommand o 16) ∧
      goodBits (mergeCommand o 21) := by decide
  obtain ⟨h1, h2⟩ := hold
  rcases hnew with h | h | h | h | h <;> subst h
  · exact (key old h1 h2).1
  · exact (key old h1 h2).2.1
  · exact (key old h1 h2).2.2.1
  · exact (key old h1 h2).2.2.2.1
  · exact (key old h1 h2).2.2.2.2

/-! ## Lookup and insert lemmas -/

lemma cmdLookup_eq_none {h : Handle} {l : List CommandStruct} :
    cmdLookup h l = none ↔ ∀ c ∈ l, c.replica ≠ h := by
  induction l with
  | nil => simp [cmdLookup]
  | cons c rest ih =>
    by_cases hc : c.replica = h <;> simp [cmdLookup, hc, ih]

lemma roLookup_eq_none {h : Handle} {l : List RemoteObject} :
    roLookup h l = none ↔ ∀ ro ∈ l, ro.replica ≠ h := by
  induction l with
  | nil => simp [roLookup]
  | cons ro rest ih =>
    by_cases hc : ro.replica = h <;> simp [roLookup, hc, ih]

lemma regLookup_eq_none {h : Handle} {l : List RegisteredReplica} :
    regLookup h l = none ↔ ∀ r ∈ l, r.replica ≠ h := by
  induction l with
  | nil => simp [regLookup]
  | cons r rest ih =>
    by_cases hc : r.replica = h <;> simp [regLookup, hc, ih]

lemma partLookup_eq_none {p : PlayerId} {l : List ParticipantStruct} :
    partLookup p l = none ↔ ∀ part ∈ l, part.playerId ≠ p := by
  induction l with
  | nil => simp [partLookup]
  | cons part rest ih =>
    by_cases hc : part.playerId = p <;> simp [partLookup, hc, ih]

lemma roLookup_mem {h : Handle} {l : List RemoteObject} {ro : RemoteObject}
    (hl : roLookup h l = some ro) : ro ∈ l ∧ ro.replica = h := by
  induction l with
  | nil => simp [roLookup] at hl
  | cons x rest ih =>
    by_cases hc : x.replica = h
    · simp [roLookup, hc] at hl; subst hl; exact ⟨List.mem_cons_self x rest, hc⟩
    · simp [roLookup, hc] at hl
      obtain ⟨h1, h2⟩ := ih hl
      exact ⟨List.mem_cons_of_mem x h1, h2⟩

lemma roLookup_roInsert_ne {x : RemoteObject} {h' : Handle} {m : List RemoteObject}
    (hne : x.replica ≠ h') : roLookup h' (roInsert x m) = roLookup h' m := by
  induction m with
  | nil => simp [roInsert, roLookup, hne]
  | cons ro rest ih =>
    unfold roInsert
    by_cases hle : x.replica ≤ ro.replica
    · simp only [if_pos hle, roLookup, if_neg hne]
    · simp only [if_neg hle, roLookup, ih]

lemma roLookup_roInsert_self {x : RemoteObject} {m : List RemoteObject}
    (hnone : roLookup x.replica m = none) :
    roLookup x.replica (roInsert x m) = some x := by
  induction m with
  | nil => simp [roInsert, roLookup]
  | cons ro rest ih =>
    have hro : ro.replica ≠ x.replica := by
      intro hcontra; simp [roLookup, hcontra] at hnone
    have hrest : roLookup x.replica rest = none := by
      simpa [roLookup, hro] using hnone
    unfold roInsert
    by_cases hle : x.replica ≤ ro.replica
    · simp [if_pos hle, roLookup]
    · simp only [if_neg hle, roLookup, if_neg hro, ih hrest]

lemma roLookup_map_preserve {f : RemoteObject → RemoteObject}
    (hf : ∀ ro, (f ro).replica = ro.replica) (h : Handle) (m : List RemoteObject) :
    roLookup h (m.map f) = (roLookup h m).map f := by
  induction m with
  | nil => rfl
  | cons ro rest ih =>
    simp only [List.map_cons, roLookup, hf]
    by_cases hc : ro.replica = h
    · simp [hc]
    · simp [hc, ih]

lemma roLookup_roSetScope_ne {h h' : Handle} {b : Bool} {m : List RemoteObject}
    (hne : h ≠ h') : roLookup h' (roSetScope h b m) = roLookup h' m := by
  rw [roSetScope, roLookup_map_preserve (by intro ro; split <;> rfl)]
  cases hro : roLookup h' m with
  | none => rfl
  | some ro =>
    have hr := (roLookup_mem hro).2
    simp only [Option.map_some']
    rw [if_neg (by rw [hr]; exact Ne.symm hne)]

lemma roLookup_roSetScope_eq {h : Handle} {b : Bool} {m : List RemoteObject} :
    roLookup h (roSetScope h b m) = (roLookup h m).map fun ro => { ro with inScope := b } := by
  rw [roSetScope, roLookup_map_preserve (by intro ro; split <;> rfl)]
  cases hro : roLookup h m with
  | none => rfl
  | some ro =>
    have hr := (roLookup_mem hro).2
    simp only [Option.map_some']
    rw [if_pos hr]

lemma roLookup_roSetLastSend_ne {h h' : Handle} {t : Nat} {m : List RemoteObject}
    (hne : h ≠ h') : roLookup h' (roSetLastSend h t m) = roLookup h' m := by
  rw [roSetLastSend, roLookup_map_preserve (by intro ro; split <;> rfl)]
  cases hro : roLookup h' m with
  | none => rfl
  | some ro =>
    have hr := (roLookup_mem hro).2
    simp only [Option.map_some']
    rw [if_neg (by rw [hr]; exact Ne.symm hne)]

lemma roLookup_roSetLastSend_eq {h : Handle} {t : Nat} {m : List RemoteObject} :
    roLookup h (roSetLastSend h t m) =
      (roLookup h m).map fun ro => { ro with lastSendTime := t } := by
  rw [roSetLastSend, roLookup_map_preserve (by intro ro; split <;> rfl)]
  cases hro : roLookup h m with
  | none => rfl
  | some ro =>
    have hr := (roLookup_mem hro).2
    simp only [Option.map_some']
    rw [if_pos hr]

lemma regLookup_regPlace_ne {h h' : Handle} {l : List RegisteredReplica}
    (hne : h ≠ h') : regLookup h' (regPlace h l) = regLookup h' l := by
  induction l with
  | nil => simp [regPlace, regLookup, hne]
  | cons r rest ih =>
    unfold regPlace
    by_cases hlt : h < r.replica
    · simp only [if_pos hlt, regLookup]
      rw [if_neg hne]
    · simp only [if_neg hlt, regLookup, ih]

lemma regLookup_regInsert_ne {h h' : Handle} {l : List RegisteredReplica}
    (hne : h ≠ h') : regLookup h' (regInsert h l) = regLookup h' l := by
  unfold regInsert
  cases regLookup h l with
  | some r => rfl
  | none => exact regLookup_regPlace_ne hne

lemma regLookup_regInsert_present {h : Handle} {l : List RegisteredReplica}
    {r : RegisteredReplica} (hr : regLookup h l = some r) :
    regLookup h (regInsert h l) = some r := by
  unfold regInsert
  rw [hr]
  exact hr

lemma regLookup_regPlace_self {h : Handle} {l : List RegisteredReplica}
    (hnone : regLookup h l = none) :
    regLookup h (regPlace h l) = some ⟨h, 0, REPLICA_SET_ALL⟩ := by
  induction l with
  | nil => simp [regPlace, regLookup]
  | cons x rest ih =>
    have hx : x.replica ≠ h := by
      intro hcontra; simp [regLookup, hcontra] at hnone
    have hrest : regLookup h rest = none := by
      simpa [regLookup, hx] using hnone
    unfold regPlace
    by_cases hlt : h < x.replica
    · simp [if_pos hlt, regLookup]
    · simp only [if_neg hlt, regLookup, if_neg hx, ih hrest]

lemma regLookup_regInsert_self {h : Handle} {l : List RegisteredReplica} :
    ∃ r, regLookup h (regInsert h l) = some r ∧ r.replica = h := by
  unfold regInsert
  cases hr : regLookup h l with
  | some r => exact ⟨r, hr, (by
      induction l with
      | nil => simp [regLookup] at hr
      | cons x rest ih =>
        by_cases hc : x.replica = h
        · simp [regLookup, hc] at hr; rw [← hr]; exact hc
        · simp [regLookup, hc] at hr; exact ih hr)⟩
  | none => exact ⟨⟨h, 0, REPLICA_SET_ALL⟩, regLookup_regPlace_self hr, rfl⟩

lemma cmdEnqueue_keys_subset {h : Handle} {bits : Nat} {l : List CommandStruct} {a : Handle}
    (ha : a ∈ (cmdEnqueue h bits l).map CommandStruct.replica) :
    a = h ∨ a ∈ l.map CommandStruct.replica := by
  induction l with
  | nil => simp [cmdEnqueue] at ha; exact Or.inl ha
  | cons c rest ih =>
    unfold cmdEnqueue at ha
    by_cases hlt : h < c.replica
    · simp only [if_pos hlt, List.map_cons, List.mem_cons] at ha
      rcases ha with ha | ha | ha
      · exact Or.inl ha
      · exact Or.inr (by simp [ha])
      · exact Or.inr (by simp [ha])
    · by_cases heq : h = c.replica
      · simp only [if_neg hlt, if_pos heq, List.map_cons, List.mem_cons] at ha
        rcases ha with ha | ha
        · exact Or.inl ha
        · exact Or.inr (by simp [ha])
      · simp only [if_neg hlt, if_neg heq, List.map_cons, List.mem_cons] at ha
        rcases ha with ha | ha
        · exact Or.inr (by simp [ha])
        · rcases ih ha with h1 | h1
          · exact Or.inl h1
          · exact Or.inr (by simp [h1])

lemma cmdEnqueue_keys_of_mem {h : Handle} {bits : Nat} {l : List CommandStruct}
    (hsort : (l.map CommandStruct.replica).Pairwise (· < ·))
    (hmem : h ∈ l.map CommandStruct.replica) :
    (cmdEnqueue h bits l).map CommandStruct.replica = l.map CommandStruct.replica := by
  induction l with
  | nil => simp at hmem
  | cons c rest ih =>
    simp only [List.map_cons, List.pairwise_cons] at hsort
    unfold cmdEnqueue
    by_cases heq : h = c.replica
    · have hlt : ¬ h < c.replica := by rw [heq]; exact lt_irrefl _
      simp [if_neg hlt, if_pos heq, heq]
    · have hmem' : h ∈ rest.map CommandStruct.replica := by
        simp only [List.map_cons, List.mem_cons] at hmem
        rcases hmem with hh | hh
        · exact absurd hh heq
        · exact hh
      have hgt : c.replica < h := hsort.1 h hmem'
      have hlt : ¬ h < c.replica := not_lt_of_gt hgt
      simp only [if_neg hlt, if_neg heq, List.map_cons]
      rw [ih hsort.2 hmem']

lemma cmdEnqueue_pairwise {h : Handle} {bits : Nat} {l : List CommandStruct}
    (hsort : (l.map CommandStruct.replica).Pairwise (· < ·)) :
    ((cmdEnqueue h bits l).map CommandStruct.replica).Pairwise (· < ·) := by
  induction l with
  | nil => simp [cmdEnqueue]
  | cons c rest ih =>
    simp only [List.map_cons, List.pairwise_cons] at hsort
    unfold cmdEnqueue
    by_cases hlt : h < c.replica
    · simp only [if_pos hlt, List.map_cons, List.pairwise_cons]
      refine ⟨?_, ?_, hsort.2⟩
      · intro a ha
        simp only [List.mem_cons] at ha
        rcases ha with ha | ha
        · rw [ha]; exact hlt
        · exact lt_trans hlt (hsort.1 a ha)
      · exact hsort.1
    · by_cases heq : h = c.replica
      · simp only [if_neg hlt, if_pos heq, List.map_cons, List.pairwise_cons]
        exact ⟨by rw [← heq] at hsort; exact hsort.1, hsort.2⟩
      · have hgt : c.replica < h :=
          lt_of_le_of_ne (le_of_not_lt hlt) (fun hcontra => heq hcontra.symm)
        simp only [if_neg hlt, if_neg heq, List.map_cons, List.pairwise_cons]
        refine ⟨?_, ih hsort.2⟩
        intro a ha
        rcases cmdEnqueue_keys_subset ha with h1 | h1
        · rw [h1]; exact hgt
        · exact hsort.1 a h1

lemma cmdEnqueue_goodBits {h : Handle} {bits : Nat} {l : List CommandStruct}
    (hl : ∀ c ∈ l, goodBits c.command) (hb : entryBits bits) :
    ∀ c ∈ cmdEnqueue h bits l, goodBits c.command := by
  induction l with
  | nil =>
    intro c hc
    simp [cmdEnqueue] at hc
    rw [hc]
    exact goodBits_of_entryBits hb
  | cons x rest ih =>
    intro c hc
    unfold cmdEnqueue at hc
    by_cases hlt : h < x.replica
    · simp only [if_pos hlt, List.mem_cons] at hc
      rcases hc with hc | hc | hc
      · rw [hc]; exact goodBits_of_entryBits hb
      · exact hl c (by simp [hc])
      · exact hl c (by simp [hc])
    · by_cases heq : h = x.replica
      · simp only [if_neg hlt, if_pos heq, List.mem_cons] at hc
        rcases hc with hc | hc
        · rw [hc]
          exact mergeCommand_goodBits (hl x (by simp)) hb
        · exact hl c (by simp [hc])
      · simp only [if_neg hlt, if_neg heq, List.mem_cons] at hc
        rcases hc with hc | hc
        · exact hl c (by simp [hc])
        · exact ih (fun c' hc' => hl c' (by simp [hc'])) c hc

lemma mem_partInsert {x part : ParticipantStruct} {l : List ParticipantStruct}
    (hmem : part ∈ partInsert x l) : part = x ∨ part ∈ l := by
  induction l with
  | nil => simp [partInsert] at hmem; exact Or.inl hmem
  | cons y rest ih =>
    unfold partInsert at hmem
    by_cases hlt : x.playerId < y.playerId
    · simp only [if_pos hlt, List.mem_cons] at hmem
      rcases hmem with hh | hh | hh
      · exact Or.inl hh
      · exact Or.inr (by simp [hh])
      · exact Or.inr (by simp [hh])
    · simp only [if_neg hlt, List.mem_cons] at hmem
      rcases hmem with hh | hh
      · exact Or.inr (by simp [hh])
      · rcases ih hh with h1 | h1
        · exact Or.inl h1
        · exact Or.inr (by simp [h1])

lemma partInsert_keys_subset {x : ParticipantStruct} {l : List ParticipantStruct} {a : PlayerId}
    (ha : a ∈ (partInsert x l).map ParticipantStruct.playerId) :
    a = x.playerId ∨ a ∈ l.map ParticipantStruct.playerId := by
  simp only [List.mem_map] at ha
  obtain ⟨part, hmem, hpa⟩ := ha
  rcases mem_partInsert hmem with h1 | h1
  · exact Or.inl (by rw [← hpa, h1])
  · exact Or.inr (by rw [← hpa]; exact List.mem_map_of_mem _ h1)

lemma partInsert_pairwise {x : ParticipantStruct} {l : List ParticipantStruct}
    (hsort : (l.map ParticipantStruct.playerId).Pairwise (· < ·))
    (hnot : x.playerId ∉ l.map ParticipantStruct.playerId) :
    ((partInsert x l).map ParticipantStruct.playerId).Pairwise (· < ·) := by
  induction l with
  | nil => simp [partInsert]
  | cons y rest ih =>
    simp only [List.map_cons, List.pairwise_cons] at hsort
    simp only [List.map_cons, List.mem_cons, not_or] at hnot
    unfold partInsert
    by_cases hlt : x.playerId < y.playerId
    · simp only [if_pos hlt, List.map_cons, List.pairwise_cons]
      refine ⟨?_, ?_, hsort.2⟩
      · intro a ha
        simp only [List.mem_cons] at ha
        rcases ha with ha | ha
        · rw [ha]; exact hlt
        · exact lt_trans hlt (hsort.1 a ha)
      · exact hsort.1
    · have hgt : y.playerId < x.playerId := by
        rcases lt_or_ge y.playerId x.playerId with hh | hh
        · exact hh
        · exact absurd (le_antisymm (le_of_not_lt hlt) hh) (Ne.symm hnot.1 : ¬ y.playerId = x.playerId)
      simp only [if_neg hlt, List.map_cons, List.pairwise_cons]
      refine ⟨?_, ih hsort.2 hnot.2⟩
      intro a ha
      rcases partInsert_keys_subset ha with h1 | h1
      · rw [h1]; exact hgt
      · exact hsort.1 a h1

/-! ## Preservation of well-formed bits through dispatch -/

lemma goodBits_step_transforms :
    ∀ b, b < 32 → ¬(b &&& REPLICA_SCOPE_TRUE ≠ 0 ∧ b &&& REPLICA_SCOPE_FALSE ≠ 0) →
      goodBits (b &&& (31 ^^^ (REPLICA_EXPLICIT_CONSTRUCTION ||| REPLICA_IMPLICIT_CONSTRUCTION))) ∧
      goodBits (b &&& (31 ^^^ (REPLICA_SCOPE_TRUE ||| REPLICA_SCOPE_FALSE))) ∧
      goodBits ((b &&& (31 ^^^ (REPLICA_SCOPE_TRUE ||| REPLICA_SCOPE_FALSE))) ||| REPLICA_SERIALIZE) ∧
      goodBits ((b &&& (31 ^^^ (REPLICA_SCOPE_TRUE ||| REPLICA_SCOPE_FALSE))) ||| 0) ∧
      goodBits (b &&& (31 ^^^ REPLICA_SERIALIZE)) := by decide

lemma constructStep_goodBits {env ds time allowed p h nid bits m}
    (hb : goodBits bits) :
    goodBits (constructStep env ds time allowed p h nid bits m).bits := by
  obtain ⟨h1, h2⟩ := hb
  have key := goodBits_step_transforms bits h1 h2
  unfold constructStep
  try dsimp only
  repeat' split
  all_goals first
    | exact key.1
    | exact ⟨h1, h2⟩

lemma scopeStep_goodBits {env allowed p h nid bits m}
    (hb : goodBits bits) :
    goodBits (scopeStep env allowed p h nid bits m).bits := by
  obtain ⟨h1, h2⟩ := hb
  have key := goodBits_step_transforms bits h1 h2
  unfold scopeStep
  try dsimp only
  repeat' split
  all_goals first
    | exact key.2.1
    | exact key.2.2.1
    | exact key.2.2.2.1
    | exact ⟨h1, h2⟩

lemma serializeStep_goodBits {env time allowed p h nid bits m}
    (hb : goodBits bits) :
    goodBits (serializeStep env time allowed p h nid bits m).bits := by
  obtain ⟨h1, h2⟩ := hb
  have key := goodBits_step_transforms bits h1 h2
  unfold serializeStep
  try dsimp only
  repeat' split
  all_goals first
    | exact key.2.2.2.2
    | exact ⟨h1, h2⟩

lemma dispatchCommand_goodBits {env ds time allowed p c m}
    (hb : goodBits c.command) :
    goodBits (dispatchCommand env ds time allowed p c m).bits := by
  unfold dispatchCommand
  cases env.networkId c.replica with
  | none => exact hb
  | some nid =>
    exact serializeStep_goodBits (scopeStep_goodBits (constructStep_goodBits hb))

lemma dispatchList_keys_sublist (env : ReplicaEnv) (ds : Bool) (time : Nat)
    (reg : List RegisteredReplica) (p : PlayerId) (cmds : List CommandStruct) :
    ∀ m, ((dispatchList env ds time reg p cmds m).cmds.map CommandStruct.replica).Sublist
      (cmds.map CommandStruct.replica) := by
  induction cmds with
  | nil => intro m; simp [dispatchList]
  | cons c rest ih =>
    intro m
    unfold dispatchList
    dsimp only
    split
    · exact (ih _).cons _
    · simpa using (ih _).cons₂ c.replica

lemma dispatchList_goodBits (env : ReplicaEnv) (ds : Bool) (time : Nat)
    (reg : List RegisteredReplica) (p : PlayerId) {cmds : List CommandStruct}
    (hl : ∀ c ∈ cmds, goodBits c.command) :
    ∀ m, ∀ c' ∈ (dispatchList env ds time reg p cmds m).cmds, goodBits c'.command := by
  induction cmds with
  | nil => intro m c' hc'; simp [dispatchList] at hc'
  | cons c rest ih =>
    intro m c' hc'
    unfold dispatchList at hc'
    dsimp only at hc'
    have hrest : ∀ c ∈ rest, goodBits c.command := fun c hc => hl c (by simp [hc])
    split at hc'
    · exact ih hrest _ c' hc'
    · simp only [List.mem_cons] at hc'
      rcases hc' with hc' | hc'
      · rw [hc']
        exact dispatchCommand_goodBits (hl c (by simp))
      · exact ih hrest _ c' hc'


/-! ## Preservation of well-formedness by every operation -/

lemma WFpart_cmdEnqueue {part : ParticipantStruct} {h : Handle} {bits : Nat}
    (hw : WFpart part) (hb : entryBits bits) :
    WFpart { part with commandList := cmdEnqueue h bits part.commandList } := by
  obtain ⟨h1, h2, h3⟩ := hw
  exact ⟨h1, cmdEnqueue_pairwise h2, cmdEnqueue_goodBits h3 hb⟩

lemma WF_map_participants {s : ReplicaManager} {f : ParticipantStruct → ParticipantStruct}
    (hid : ∀ part, (f part).playerId = part.playerId)
    (hwf : WF s)
    (hpart : ∀ part ∈ s.participantList, WFpart part → WFpart (f part)) :
    WF { s with participantList := s.participantList.map f } := by
  obtain ⟨hkeys, hparts⟩ := hwf
  constructor
  · have : (s.participantList.map f).map ParticipantStruct.playerId =
        s.participantList.map ParticipantStruct.playerId := by
      rw [List.map_map]
      exact List.map_congr_left fun part _ => hid part
    rw [this]
    exact hkeys
  · intro part hmem
    simp only [List.mem_map] at hmem
    obtain ⟨part0, hmem0, hf⟩ := hmem
    rw [← hf]
    exact hpart part0 hmem0 (hparts part0 hmem0)

lemma WF_enqueueToTargets {s : ReplicaManager} {h : Handle} {bits : Nat}
    {pid : PlayerId} {bc : Bool} (hwf : WF s) (hb : entryBits bits) :
    WF (enqueueToTargets h bits pid bc s) := by
  refine WF_map_participants ?_ hwf ?_
  · intro part; dsimp only; split <;> rfl
  · intro part _ hw
    dsimp only
    split
    · exact WFpart_cmdEnqueue hw hb
    · exact hw

lemma WF_ReferencePointer {s : ReplicaManager} {h : Handle} (hwf : WF s) :
    WF (ReferencePointer h s) := hwf

lemma WF_Construct {s : ReplicaManager} {h : Handle} {pid : PlayerId} {bc : Bool}
    (hwf : WF s) : WF (Construct h pid bc s) := by
  unfold Construct
  apply WF_enqueueToTargets (WF_ReferencePointer hwf)
  unfold entryBits
  split <;> simp [REPLICA_EXPLICIT_CONSTRUCTION, REPLICA_SCOPE_TRUE, REPLICA_SERIALIZE]

lemma WF_SetScope {s : ReplicaManager} {h : Handle} {sc : Bool} {pid : PlayerId} {bc : Bool}
    (hwf : WF s) : WF (SetScope h sc pid bc s) := by
  unfold SetScope
  apply WF_enqueueToTargets (WF_ReferencePointer hwf)
  unfold entryBits
  split <;> simp [REPLICA_SCOPE_TRUE, REPLICA_SCOPE_FALSE]

lemma WF_SignalSerializeNeeded {s : ReplicaManager} {h : Handle} {pid : PlayerId} {bc : Bool}
    (hwf : WF s) : WF (SignalSerializeNeeded h pid bc s) := by
  unfold SignalSerializeNeeded
  apply WF_enqueueToTargets (WF_ReferencePointer hwf)
  unfold entryBits
  simp [REPLICA_SERIALIZE]

lemma WFpart_purge {part : ParticipantStruct} {h : Handle} (hw : WFpart part) :
    WFpart (purgeHandle h part) := by
  obtain ⟨h1, h2, h3⟩ := hw
  refine ⟨h1, ?_, ?_⟩
  · exact h2.sublist ((List.filter_sublist _).map _)
  · intro c hc
    exact h3 c (List.mem_of_mem_filter hc)

lemma destructAtParticipant_playerId (env : ReplicaEnv) (h : Handle)
    (part : ParticipantStruct) :
    (destructAtParticipant env h part).1.playerId = part.playerId := by
  unfold destructAtParticipant
  split <;> rfl

lemma WFpart_destructAtParticipant {env : ReplicaEnv} {h : Handle}
    {part : ParticipantStruct} (hw : WFpart part) :
    WFpart (destructAtParticipant env h part).1 := by
  obtain ⟨h1, h2, h3⟩ := hw
  have hcl : ((cmdPurge h part.commandList).map CommandStruct.replica).Pairwise (· < ·) :=
    h2.sublist ((List.filter_sublist _).map _)
  have hgb : ∀ c ∈ cmdPurge h part.commandList, goodBits c.command :=
    fun c hc => h3 c (List.mem_of_mem_filter hc)
  unfold destructAtParticipant
  split <;> exact ⟨h1, hcl, hgb⟩

lemma WF_Destruct {env : ReplicaEnv} {s : ReplicaManager} {h : Handle}
    {pid : PlayerId} {bc : Bool} (hwf : WF s) :
    WF (Destruct env h pid bc s).1 := by
  unfold Destruct
  cases regLookup h s.replicatedObjects with
  | none => exact hwf
  | some r =>
    dsimp only
    have hmap : ((s.participantList.map fun part =>
        if isTarget pid bc part.playerId then destructAtParticipant env h part
        else (part, [])).map Prod.fst) =
        s.participantList.map fun part =>
          if isTarget pid bc part.playerId then (destructAtParticipant env h part).1
          else part := by
      rw [List.map_map]
      apply List.map_congr_left
      intro part _
      dsimp only [Function.comp]
      split <;> rfl
    have hwf2 : WF { s with participantList :=
        s.participantList.map (fun part =>
          if isTarget pid bc part.playerId then (destructAtParticipant env h part).1
          else part) } := by
      refine WF_map_participants ?_ hwf ?_
      · intro part; dsimp only; split
        · exact destructAtParticipant_playerId env h part
        · rfl
      · intro part _ hw
        dsimp only
        split
        · exact WFpart_destructAtParticipant hw
        · exact hw
    split
    · exact ⟨by rw [hmap]; exact hwf2.1, by rw [hmap]; exact hwf2.2⟩
    · exact ⟨by rw [hmap]; exact hwf2.1, by rw [hmap]; exact hwf2.2⟩

lemma WF_DereferencePointer {s : ReplicaManager} {h : Handle} (hwf : WF s) :
    WF (DereferencePointer h s).1 := by
  unfold DereferencePointer
  exact WF_map_participants (fun part => rfl) hwf (fun part _ hw => WFpart_purge hw)

lemma foldl_cmdEnqueue_wf (reg : List RegisteredReplica) :
    ∀ acc : List CommandStruct,
      (acc.map CommandStruct.replica).Pairwise (· < ·) →
      (∀ c ∈ acc, goodBits c.command) →
      (((reg.foldl (fun acc r => cmdEnqueue r.replica REPLICA_EXPLICIT_CONSTRUCTION acc)
          acc).map CommandStruct.replica).Pairwise (· < ·) ∧
        ∀ c ∈ reg.foldl (fun acc r => cmdEnqueue r.replica REPLICA_EXPLICIT_CONSTRUCTION acc) acc,
          goodBits c.command) := by
  induction reg with
  | nil => intro acc h1 h2; exact ⟨h1, h2⟩
  | cons r rest ih =>
    intro acc h1 h2
    exact ih _ (cmdEnqueue_pairwise h1)
      (cmdEnqueue_goodBits h2 (Or.inl rfl))

lemma WF_AddParticipant {s : ReplicaManager} {pid : PlayerId} (hwf : WF s) :
    WF (AddParticipant pid s) := by
  unfold AddParticipant
  by_cases hpid : pid = UNASSIGNED_PLAYER_ID
  · rw [if_pos hpid]; exact hwf
  · rw [if_neg hpid]
    cases hnone : partLookup pid s.participantList with
    | some part => exact hwf
    | none =>
      obtain ⟨hkeys, hparts⟩ := hwf
      have hfold := foldl_cmdEnqueue_wf s.replicatedObjects [] (by simp) (by simp)
      have hnotmem : pid ∉ s.participantList.map ParticipantStruct.playerId := by
        intro hcontra
        simp only [List.mem_map] at hcontra
        obtain ⟨part, hmem, hid⟩ := hcontra
        exact (partLookup_eq_none.mp hnone) part hmem hid
      constructor
      · exact partInsert_pairwise hkeys hnotmem
      · intro part hmem
        rcases mem_partInsert hmem with h1 | h1
        · rw [h1]
          refine ⟨hpid, ?_, ?_⟩
          · dsimp only
            split
            · exact (foldl_cmdEnqueue_wf s.replicatedObjects [] (by simp) (by simp)).1
            · simp
          · dsimp only
            split
            · exact (foldl_cmdEnqueue_wf s.replicatedObjects [] (by simp) (by simp)).2
            · simp
        · exact hparts part h1

lemma WF_RemoveParticipant {s : ReplicaManager} {pid : PlayerId} (hwf : WF s) :
    WF (RemoveParticipant pid s) := by
  obtain ⟨hkeys, hparts⟩ := hwf
  constructor
  · exact hkeys.sublist ((List.filter_sublist _).map _)
  · intro part hmem
    exact hparts part (List.mem_of_mem_filter hmem)

lemma participantTick_playerId (env : ReplicaEnv) (ds : Bool) (time : Nat)
    (reg : List RegisteredReplica) (part : ParticipantStruct) :
    (participantTick env ds time reg part).1.playerId = part.playerId := by
  unfold participantTick
  dsimp only
  split <;> rfl

lemma WFpart_participantTick {env : ReplicaEnv} {ds : Bool} {time : Nat}
    {reg : List RegisteredReplica} {part : ParticipantStruct} (hw : WFpart part) :
    WFpart (participantTick env ds time reg part).1 := by
  obtain ⟨h1, h2, h3⟩ := hw
  have hcl := h2.sublist (dispatchList_keys_sublist env ds time reg part.playerId
    part.commandList part.remoteObjectList)
  have hgb := dispatchList_goodBits env ds time reg part.playerId h3 part.remoteObjectList
  unfold participantTick
  dsimp only
  split <;> exact ⟨h1, hcl, hgb⟩

lemma WF_OnUpdate {env : ReplicaEnv} {time : Nat} {s : ReplicaManager} (hwf : WF s) :
    WF (OnUpdate env time s).1 := by
  unfold OnUpdate
  dsimp only
  rw [List.map_map]
  exact WF_map_participants (fun part => participantTick_playerId _ _ _ _ part) hwf
    (fun part _ hw => WFpart_participantTick hw)

lemma WF_EnableReplicaInterfaces {s : ReplicaManager} {h : Handle} {mask : Nat}
    (hwf : WF s) : WF (EnableReplicaInterfaces h mask s) := hwf

lemma WF_DisableReplicaInterfaces {s : ReplicaManager} {h : Handle} {mask : Nat}
    (hwf : WF s) : WF (DisableReplicaInterfaces h mask s) := hwf

lemma WF_applyCall {s : ReplicaManager} (call : UserCall) (hwf : WF s) :
    WF (applyCall s call) := by
  cases call with
  | construct h pid b => exact WF_Construct hwf
  | setScope h sc pid b => exact WF_SetScope hwf
  | signalSerialize h pid b => exact WF_SignalSerializeNeeded hwf
  | destruct env h pid b => exact WF_Destruct hwf
  | reference h => exact WF_ReferencePointer hwf
  | dereference h => exact WF_DereferencePointer hwf
  | addParticipant pid => exact WF_AddParticipant hwf
  | removeParticipant pid => exact WF_RemoveParticipant hwf
  | setDefaultScope b => exact hwf
  | setAutoConstruct b => exact hwf
  | enableInterfaces h mask => exact WF_EnableReplicaInterfaces hwf
  | disableInterfaces h mask => exact WF_DisableReplicaInterfaces hwf
  | tick env time => exact WF_OnUpdate hwf

lemma WF_run {s : ReplicaManager} (calls : List UserCall) (hwf : WF s) :
    WF (run calls s) := by
  induction calls generalizing s with
  | nil => exact hwf
  | cons call rest ih => exact ih (WF_applyCall call hwf)

lemma WF_initial : WF initialReplicaManager := by decide

/-- Every state reachable from the initial manager by user calls and ticks
is well formed. -/
lemma wf_reachable (calls : List UserCall) : WF (run calls initialReplicaManager) :=
  WF_run calls WF_initial

/-! ## Locality of dispatch

Every event emitted while dispatching one record concerns that record's
handle and that participant, and dispatch touches no other handle's
mirror entry. -/

lemma constructStep_evs_mem {env : ReplicaEnv} {ds : Bool} {time : Nat}
    {allowed : Nat} {p : PlayerId} {h : Handle} {nid bits : Nat} {m : List RemoteObject} :
    ∀ e ∈ (constructStep env ds time allowed p h nid bits m).evs,
      e.handle = h ∧ e.player = p ∧ e.nid = nid ∧
        (e.tag = .callSendConstruction ∨ e.tag = .wireConstruct) := by
  unfold constructStep
  repeat' split
  all_goals intro e he
  all_goals simp only [List.mem_cons, List.not_mem_nil, or_false] at he
  all_goals first
    | exact absurd he id
    | (rcases he with rfl | rfl <;> exact ⟨rfl, rfl, rfl, by simp⟩)
    | (subst he; exact ⟨rfl, rfl, rfl, by simp⟩)

lemma scopeStep_evs_mem {env : ReplicaEnv} {allowed : Nat} {p : PlayerId}
    {h : Handle} {nid bits : Nat} {m : List RemoteObject} :
    ∀ e ∈ (scopeStep env allowed p h nid bits m).evs,
      e.handle = h ∧ e.player = p ∧ e.nid = nid ∧
        (e.tag = .callSendScopeChangeTrue ∨ e.tag = .callSendScopeChangeFalse ∨
          e.tag = .wireScopeChange) := by
  unfold scopeStep
  try dsimp only
  repeat' split
  all_goals intro e he
  all_goals simp only [List.mem_cons, List.not_mem_nil, or_false] at he
  all_goals first
    | exact absurd he id
    | (rcases he with rfl | rfl <;> exact ⟨rfl, rfl, rfl, by simp⟩)
    | (subst he; exact ⟨rfl, rfl, rfl, by simp⟩)

lemma serializeStep_evs_mem {env : ReplicaEnv} {time allowed : Nat} {p : PlayerId}
    {h : Handle} {nid bits : Nat} {m : List RemoteObject} :
    ∀ e ∈ (serializeStep env time allowed p h nid bits m).evs,
      e.handle = h ∧ e.player = p ∧ e.nid = nid ∧
        (e.tag = .callSerialize ∨ e.tag = .wireSerialize) := by
  unfold serializeStep
  repeat' split
  all_goals intro e he
  all_goals simp only [List.mem_cons, List.not_mem_nil, or_false] at he
  all_goals first
    | exact absurd he id
    | (rcases he with rfl | rfl <;> exact ⟨rfl, rfl, rfl, by simp⟩)
    | (subst he; exact ⟨rfl, rfl, rfl, by simp⟩)

lemma dispatchCommand_evs_mem {env : ReplicaEnv} {ds : Bool} {time allowed : Nat}
    {p : PlayerId} {c : CommandStruct} {m : List RemoteObject} :
    ∀ e ∈ (dispatchCommand env ds time allowed p c m).evs,
      e.handle = c.replica ∧ e.player = p := by
  unfold dispatchCommand
  cases hnid : env.networkId c.replica with
  | none => intro e he; exact absurd he (List.not_mem_nil e)
  | some nid =>
    intro e he
    simp only [List.mem_append] at he
    rcases he with he | he | he
    · obtain ⟨h1, h2, _⟩ := constructStep_evs_mem e he
      exact ⟨h1, h2⟩
    · obtain ⟨h1, h2, _⟩ := scopeStep_evs_mem e he
      exact ⟨h1, h2⟩
    · obtain ⟨h1, h2, _⟩ := serializeStep_evs_mem e he
      exact ⟨h1, h2⟩

lemma constructStep_mirror_ne {env : ReplicaEnv} {ds : Bool} {time allowed : Nat}
    {p : PlayerId} {h h' : Handle} {nid bits : Nat} {m : List RemoteObject}
    (hne : h ≠ h') :
    roLookup h' (constructStep env ds time allowed p h nid bits m).mirror = roLookup h' m := by
  unfold constructStep
  repeat' split
  all_goals first
    | rfl
    | exact roLookup_roInsert_ne hne

lemma scopeStep_mirror_ne {env : ReplicaEnv} {allowed : Nat} {p : PlayerId}
    {h h' : Handle} {nid bits : Nat} {m : List RemoteObject} (hne : h ≠ h') :
    roLookup h' (scopeStep env allowed p h nid bits m).mirror = roLookup h' m := by
  unfold scopeStep
  try dsimp only
  repeat' split
  all_goals first
    | rfl
    | exact roLookup_roSetScope_ne hne

lemma serializeStep_mirror_ne {env : ReplicaEnv} {time allowed : Nat} {p : PlayerId}
    {h h' : Handle} {nid bits : Nat} {m : List RemoteObject} (hne : h ≠ h') :
    roLookup h' (serializeStep env time allowed p h nid bits m).mirror = roLookup h' m := by
  unfold serializeStep
  repeat' split
  all_goals first
    | rfl
    | exact roLookup_roSetLastSend_ne hne

lemma dispatchCommand_mirror_ne {env : ReplicaEnv} {ds : Bool} {time allowed : Nat}
    {p : PlayerId} {c : CommandStruct} {h' : Handle} {m : List RemoteObject}
    (hne : c.replica ≠ h') :
    roLookup h' (dispatchCommand env ds time allowed p c m).mirror = roLookup h' m := by
  unfold dispatchCommand
  cases env.networkId c.replica with
  | none => rfl
  | some nid =>
    dsimp only
    rw [serializeStep_mirror_ne hne, scopeStep_mirror_ne hne, constructStep_mirror_ne hne]

lemma dispatchList_evs_mem (env : ReplicaEnv) (ds : Bool) (time : Nat)
    (reg : List RegisteredReplica) (p : PlayerId) :
    ∀ (cmds : List CommandStruct) (m : List RemoteObject),
      ∀ e ∈ (dispatchList env ds time reg p cmds m).evs,
        e.player = p ∧ e.handle ∈ cmds.map CommandStruct.replica := by
  intro cmds
  induction cmds with
  | nil => intro m e he; simp [dispatchList] at he
  | cons c rest ih =>
    intro m e he
    unfold dispatchList at he
    dsimp only at he
    simp only [List.mem_append] at he
    rcases he with he | he
    · obtain ⟨h1, h2⟩ := dispatchCommand_evs_mem e he
      exact ⟨h2, by simp [h1]⟩
    · obtain ⟨h1, h2⟩ := ih _ e he
      exact ⟨h1, by simp only [List.map_cons, List.mem_cons]; exact Or.inr h2⟩

lemma dispatchList_mirror_ne (env : ReplicaEnv) (ds : Bool) (time : Nat)
    (reg : List RegisteredReplica) (p : PlayerId) :
    ∀ (cmds : List CommandStruct) (m : List RemoteObject) (h' : Handle),
      h' ∉ cmds.map CommandStruct.replica →
      roLookup h' (dispatchList env ds time reg p cmds m).mirror = roLookup h' m := by
  intro cmds
  induction cmds with
  | nil => intro m h' _; rfl
  | cons c rest ih =>
    intro m h' hnot
    simp only [List.map_cons, List.mem_cons, not_or] at hnot
    unfold dispatchList
    dsimp only
    rw [ih _ h' hnot.2, dispatchCommand_mirror_ne (fun hcontra => hnot.1 hcontra.symm)]

/-! ## Counting events -/

/-- Count the events whose tag satisfies a predicate and that concern one
(handle, participant) pair. -/
def countTag (pr : EvTag → Bool) (h : Handle) (p : PlayerId) (evs : List Event) : Nat :=
  evs.countP fun e => pr e.tag && e.handle == h && e.player == p

lemma countTag_append (pr : EvTag → Bool) (h : Handle) (p : PlayerId)
    (a b : List Event) : countTag pr h p (a ++ b) = countTag pr h p a + countTag pr h p b :=
  List.countP_append _ a b

lemma countTag_eq_zero_of_handle (pr : EvTag → Bool) (h : Handle) (p : PlayerId)
    (evs : List Event) (hev : ∀ e ∈ evs, e.handle ≠ h) :
    countTag pr h p evs = 0 := by
  apply List.countP_eq_zero.mpr
  intro e he
  simp only [Bool.and_eq_true, beq_iff_eq, not_and]
  intro hcontra
  exact absurd hcontra.2 (hev e he)

lemma countTag_eq_zero_of_player (pr : EvTag → Bool) (h : Handle) (p : PlayerId)
    (evs : List Event) (hev : ∀ e ∈ evs, e.player ≠ p) :
    countTag pr h p evs = 0 := by
  apply List.countP_eq_zero.mpr
  intro e he
  simp only [Bool.and_eq_true, beq_iff_eq, not_and]
  intro _
  exact hev e he

/-- Walking a queue with pairwise-distinct handles: the events counted for
one handle are exactly the events of that handle's record (dispatched
against a mirror whose entry for the handle agrees with the initial one),
and zero when no record for the handle is queued. -/
lemma countTag_dispatchList (env : ReplicaEnv) (ds : Bool) (time : Nat)
    (reg : List RegisteredReplica) (p : PlayerId) (pr : EvTag → Bool) (h : Handle) :
    ∀ (cmds : List CommandStruct) (m : List RemoteObject),
      (cmds.map CommandStruct.replica).Pairwise (· ≠ ·) →
      ∃ m', roLookup h m' = roLookup h m ∧
        countTag pr h p (dispatchList env ds time reg p cmds m).evs =
          (match cmdLookup h cmds with
           | some c => countTag pr h p
              (dispatchCommand env ds time (allowedOf reg h) p c m').evs
           | none => 0) := by
  intro cmds
  induction cmds with
  | nil =>
    intro m _
    exact ⟨m, rfl, by simp [dispatchList, cmdLookup, countTag]⟩
  | cons c rest ih =>
    intro m hdist
    simp only [List.map_cons, List.pairwise_cons] at hdist
    unfold dispatchList
    dsimp only
    by_cases hc : c.replica = h
    · have hl : cmdLookup h (c :: rest) = some c := by simp [cmdLookup, hc]
      refine ⟨m, rfl, ?_⟩
      rw [countTag_append, hl]
      dsimp only
      have hrest : countTag pr h p
          (dispatchList env ds time reg p rest
            (dispatchCommand env ds time (allowedOf reg c.replica) p c m).mirror).evs = 0 := by
        apply countTag_eq_zero_of_handle
        intro e he
        obtain ⟨_, hmem⟩ := dispatchList_evs_mem env ds time reg p rest _ e he
        intro hcontra
        rw [hcontra] at hmem
        obtain ⟨a, hmema, ha⟩ := List.mem_map.mp hmem
        exact hdist.1 a.replica (List.mem_map_of_mem _ hmema) (by rw [ha, hc])
      rw [hrest, hc]
      omega
    · have hl : cmdLookup h (c :: rest) = cmdLookup h rest := by simp [cmdLookup, hc]
      obtain ⟨m', hm', hcount⟩ := ih
        ((dispatchCommand env ds time (allowedOf reg c.replica) p c m).mirror) hdist.2
      refine ⟨m', ?_, ?_⟩
      · rw [hm']
        exact dispatchCommand_mirror_ne hc
      · rw [countTag_append, hl]
        have hhead : countTag pr h p
            (dispatchCommand env ds time (allowedOf reg c.replica) p c m).evs = 0 := by
          apply countTag_eq_zero_of_handle
          intro e he
          rw [(dispatchCommand_evs_mem e he).1]
          exact hc
        rw [hhead, hcount]
        omega

lemma participantTick_evs_player (env : ReplicaEnv) (ds : Bool) (time : Nat)
    (reg : List RegisteredReplica) (part : ParticipantStruct) :
    ∀ e ∈ (participantTick env ds time reg part).2, e.player = part.playerId := by
  unfold participantTick
  dsimp only
  split
  · intro e he
    simp only [List.mem_append, List.mem_cons, List.not_mem_nil, or_false] at he
    rcases he with he | rfl | rfl
    · exact (dispatchList_evs_mem env ds time reg part.playerId _ _ e he).1
    · rfl
    · rfl
  · intro e he
    exact (dispatchList_evs_mem env ds time reg part.playerId _ _ e he).1

lemma countTag_participantTick (env : ReplicaEnv) (ds : Bool) (time : Nat)
    (reg : List RegisteredReplica) (part : ParticipantStruct)
    (pr : EvTag → Bool) (h : Handle) (p : PlayerId)
    (hpr1 : pr .callSendDownloadComplete = false)
    (hpr2 : pr .wireDownloadComplete = false) :
    countTag pr h p (participantTick env ds time reg part).2 =
      countTag pr h p (dispatchList env ds time reg part.playerId
        part.commandList part.remoteObjectList).evs := by
  unfold participantTick
  dsimp only
  split
  · rw [countTag_append]
    have : countTag pr h p [(⟨.callSendDownloadComplete, 0, 0, part.playerId⟩ : Event),
        ⟨.wireDownloadComplete, 0, 0, part.playerId⟩] = 0 := by
      simp [countTag, hpr1, hpr2]
    rw [this]
    omega
  · rfl

lemma mem_ticks_flatten {env : ReplicaEnv} {ds : Bool} {time : Nat}
    {reg : List RegisteredReplica} {parts : List ParticipantStruct} {e : Event}
    (he : e ∈ ((parts.map (participantTick env ds time reg)).map Prod.snd).flatten) :
    ∃ part ∈ parts, e ∈ (participantTick env ds time reg part).2 := by
  rw [List.map_map] at he
  simp only [List.mem_flatten, List.mem_map, Function.comp] at he
  obtain ⟨evs, ⟨part, hpart, hevs⟩, hin⟩ := he
  exact ⟨part, hpart, by rw [← hevs] at hin; exact hin⟩

/-- The events of one tick counted for a (handle, participant) pair, when
participant ids are pairwise distinct, are the events produced while
walking that participant's queue — zero when the participant is absent. -/
lemma countTag_ticks (env : ReplicaEnv) (ds : Bool) (time : Nat)
    (reg : List RegisteredReplica) (pr : EvTag → Bool) (h : Handle) (p : PlayerId)
    (hpr1 : pr .callSendDownloadComplete = false)
    (hpr2 : pr .wireDownloadComplete = false) :
    ∀ parts : List ParticipantStruct,
      (parts.map ParticipantStruct.playerId).Pairwise (· ≠ ·) →
      countTag pr h p
        (((parts.map (participantTick env ds time reg)).map Prod.snd).flatten) =
      (match partLookup p parts with
       | some part => countTag pr h p (dispatchList env ds time reg part.playerId
           part.commandList part.remoteObjectList).evs
       | none => 0) := by
  intro parts
  induction parts with
  | nil => intro _; simp [countTag, partLookup]
  | cons part rest ih =>
    intro hdist
    simp only [List.map_cons, List.pairwise_cons] at hdist
    simp only [List.map_cons, List.flatten_cons, countTag_append]
    by_cases hp : part.playerId = p
    · have hl : partLookup p (part :: rest) = some part := by simp [partLookup, hp]
      rw [hl]
      dsimp only
      have hrest : countTag pr h p
          (((rest.map (participantTick env ds time reg)).map Prod.snd).flatten) = 0 := by
        apply countTag_eq_zero_of_player
        intro e he
        obtain ⟨part', hmem, hev⟩ := mem_ticks_flatten he
        rw [participantTick_evs_player env ds time reg part' e hev]
        intro hcontra
        exact hdist.1 part'.playerId (List.mem_map_of_mem _ hmem) (by rw [hp, hcontra])
      rw [hrest, countTag_participantTick env ds time reg part pr h p hpr1 hpr2]
      omega
    · have hl : partLookup p (part :: rest) = partLookup p rest := by
        simp [partLookup, hp]
      rw [hl]
      have hhead : countTag pr h p (participantTick env ds time reg part).2 = 0 := by
        apply countTag_eq_zero_of_player
        intro e he
        rw [participantTick_evs_player env ds time reg part e he]
        exact hp
      rw [hhead, ih hdist.2]
      omega

lemma countTag_eq_zero_of_tags (pr : EvTag → Bool) (h : Handle) (p : PlayerId)
    (evs : List Event) (hev : ∀ e ∈ evs, pr e.tag = false) :
    countTag pr h p evs = 0 := by
  apply List.countP_eq_zero.mpr
  intro e he
  simp [hev e he]

lemma countTag_OnUpdate (env : ReplicaEnv) (time : Nat) (s : ReplicaManager)
    (pr : EvTag → Bool) (h : Handle) (p : PlayerId) (hwf : WF s)
    (hpr1 : pr .callSendDownloadComplete = false)
    (hpr2 : pr .wireDownloadComplete = false) :
    countTag pr h p (OnUpdate env time s).2 =
      (match partLookup p s.participantList with
       | some part => countTag pr h p (dispatchList env s.defaultScope time
           s.replicatedObjects part.playerId part.commandList part.remoteObjectList).evs
       | none => 0) := by
  unfold OnUpdate
  dsimp only
  exact countTag_ticks env s.defaultScope time s.replicatedObjects pr h p hpr1 hpr2
    s.participantList (hwf.1.imp fun hlt => Nat.ne_of_lt hlt)

lemma partLookup_mem {p : PlayerId} {l : List ParticipantStruct} {part : ParticipantStruct}
    (hl : partLookup p l = some part) : part ∈ l ∧ part.playerId = p := by
  induction l with
  | nil => simp [partLookup] at hl
  | cons x rest ih =>
    by_cases hc : x.playerId = p
    · simp [partLookup, hc] at hl; subst hl; exact ⟨List.mem_cons_self x rest, hc⟩
    · simp [partLookup, hc] at hl
      obtain ⟨h1, h2⟩ := ih hl
      exact ⟨List.mem_cons_of_mem x h1, h2⟩

lemma cmdLookup_mem {h : Handle} {l : List CommandStruct} {c : CommandStruct}
    (hl : cmdLookup h l = some c) : c ∈ l ∧ c.replica = h := by
  induction l with
  | nil => simp [cmdLookup] at hl
  | cons x rest ih =>
    by_cases hc : x.replica = h
    · simp [cmdLookup, hc] at hl; subst hl; exact ⟨List.mem_cons_self x rest, hc⟩
    · simp [cmdLookup, hc] at hl
      obtain ⟨h1, h2⟩ := ih hl
      exact ⟨List.mem_cons_of_mem x h1, h2⟩

lemma partLookup_map_preserve {f : ParticipantStruct → ParticipantStruct}
    (hf : ∀ part, (f part).playerId = part.playerId) (p : PlayerId)
    (l : List ParticipantStruct) :
    partLookup p (l.map f) = (partLookup p l).map f := by
  induction l with
  | nil => rfl
  | cons part rest ih =>
    simp only [List.map_cons, partLookup, hf]
    by_cases hc : part.playerId = p
    · simp [hc]
    · simp [hc, ih]

lemma cmdLookup_cmdPurge_self (h : Handle) (l : List CommandStruct) :
    cmdLookup h (cmdPurge h l) = none := by
  apply cmdLookup_eq_none.mpr
  intro c hc
  have := List.mem_filter.mp hc
  exact of_decide_eq_true this.2

lemma roLookup_roPurge_self (h : Handle) (l : List RemoteObject) :
    roLookup h (roPurge h l) = none := by
  apply roLookup_eq_none.mpr
  intro ro hro
  have := List.mem_filter.mp hro
  exact of_decide_eq_true this.2

lemma cmdLookup_cmdPurge_ne {h h' : Handle} (hne : h' ≠ h) (l : List CommandStruct) :
    cmdLookup h' (cmdPurge h l) = cmdLookup h' l := by
  induction l with
  | nil => rfl
  | cons c rest ih =>
    unfold cmdPurge at ih ⊢
    by_cases hc : c.replica = h
    · rw [List.filter_cons_of_neg (by simp [hc])]
      rw [ih]
      simp only [cmdLookup]
      rw [if_neg (by rw [hc]; exact Ne.symm hne)]
    · rw [List.filter_cons_of_pos (by simp [hc])]
      simp only [cmdLookup]
      rw [ih]

lemma roLookup_roPurge_ne {h h' : Handle} (hne : h' ≠ h) (l : List RemoteObject) :
    roLookup h' (roPurge h l) = roLookup h' l := by
  induction l with
  | nil => rfl
  | cons ro rest ih =>
    unfold roPurge at ih ⊢
    by_cases hc : ro.replica = h
    · rw [List.filter_cons_of_neg (by simp [hc])]
      rw [ih]
      simp only [roLookup]
      rw [if_neg (by rw [hc]; exact Ne.symm hne)]
    · rw [List.filter_cons_of_pos (by simp [hc])]
      simp only [roLookup]
      rw [ih]

lemma roPurge_of_none {h : Handle} {l : List RemoteObject}
    (hnone : roLookup h l = none) : roPurge h l = l := by
  apply List.filter_eq_self.mpr
  intro ro hro
  exact decide_eq_true ((roLookup_eq_none.mp hnone) ro hro)

lemma regLookup_filter_self (h : Handle) (l : List RegisteredReplica) :
    regLookup h (l.filter fun r => r.replica ≠ h) = none := by
  apply regLookup_eq_none.mpr
  intro r hr
  exact of_decide_eq_true (List.mem_filter.mp hr).2

lemma regLookup_filter_ne {h h' : Handle} (hne : h' ≠ h) (l : List RegisteredReplica) :
    regLookup h' (l.filter fun r => r.replica ≠ h) = regLookup h' l := by
  induction l with
  | nil => rfl
  | cons r rest ih =>
    by_cases hc : r.replica = h
    · rw [List.filter_cons_of_neg (by simp [hc])]
      rw [ih]
      simp only [regLookup]
      rw [if_neg (by rw [hc]; exact Ne.symm hne)]
    · rw [List.filter_cons_of_pos (by simp [hc])]
      simp only [regLookup]
      rw [ih]

lemma count_le_one_of_pairwise (h : Handle) (l : List CommandStruct)
    (hp : (l.map CommandStruct.replica).Pairwise (· < ·)) :
    (l.filter fun c => c.replica == h).length ≤ 1 := by
  induction l with
  | nil => simp
  | cons c rest ih =>
    simp only [List.map_cons, List.pairwise_cons] at hp
    by_cases hc : c.replica = h
    · rw [List.filter_cons_of_pos (by simp [hc])]
      have hempty : rest.filter (fun c => c.replica == h) = [] := by
        apply List.filter_eq_nil_iff.mpr
        intro c' hc'
        simp only [beq_iff_eq]
        intro hcontra
        have := hp.1 c'.replica (List.mem_map_of_mem _ hc')
        rw [hcontra, hc] at this
        exact lt_irrefl h this
      simp [hempty]
    · rw [List.filter_cons_of_neg (by simp [hc])]
      exact ih hp.2

lemma cmdLookup_cmdEnqueue_self {h : Handle} {bits : Nat} {l : List CommandStruct}
    (hsort : (l.map CommandStruct.replica).Pairwise (· < ·)) :
    cmdLookup h (cmdEnqueue h bits l) =
      some ⟨h, match cmdLookup h l with
               | some c0 => mergeCommand c0.command bits
               | none => bits⟩ := by
  induction l with
  | nil => simp [cmdEnqueue, cmdLookup]
  | cons c rest ih =>
    simp only [List.map_cons, List.pairwise_cons] at hsort
    unfold cmdEnqueue
    by_cases hlt : h < c.replica
    · have hc : c.replica ≠ h := fun hcontra => by rw [hcontra] at hlt; exact lt_irrefl h hlt
      have hnone : cmdLookup h rest = none := by
        apply cmdLookup_eq_none.mpr
        intro c' hc'
        intro hcontra
        have := hsort.1 c'.replica (List.mem_map_of_mem _ hc')
        rw [hcontra] at this
        exact absurd (lt_trans hlt this) (lt_irrefl h)
      rw [if_pos hlt]
      unfold cmdLookup
      rw [if_pos rfl, if_neg hc, hnone]
    · by_cases heq : h = c.replica
      · rw [if_neg hlt, if_pos heq]
        unfold cmdLookup
        rw [if_pos rfl, if_pos heq.symm]
      · rw [if_neg hlt, if_neg heq]
        unfold cmdLookup
        rw [if_neg (fun hcontra => heq hcontra.symm), if_neg (fun hcontra => heq hcontra.symm),
          ih hsort.2]

/-! ## Dispatch evaluation under specific conditions -/

lemma bit_facts :
    ∀ b, b < 32 →
      ((b &&& REPLICA_SCOPE_TRUE ≠ 0 →
          (b &&& (31 ^^^ (REPLICA_EXPLICIT_CONSTRUCTION ||| REPLICA_IMPLICIT_CONSTRUCTION)))
            &&& REPLICA_SCOPE_TRUE ≠ 0) ∧
        (b &&& REPLICA_SCOPE_TRUE ≠ 0 →
          b &&& (REPLICA_SCOPE_TRUE ||| REPLICA_SCOPE_FALSE) ≠ 0) ∧
        (((b &&& (31 ^^^ (REPLICA_SCOPE_TRUE ||| REPLICA_SCOPE_FALSE))) ||| REPLICA_SERIALIZE)
          &&& REPLICA_SERIALIZE ≠ 0) ∧
        (b &&& (31 ^^^ (REPLICA_EXPLICIT_CONSTRUCTION ||| REPLICA_IMPLICIT_CONSTRUCTION)) < 32) ∧
        (mergeCommand b REPLICA_SCOPE_TRUE &&& REPLICA_SCOPE_TRUE ≠ 0)) := by
  decide

/-- When a mirror entry for the record's handle already exists, the
construct stage is a duplicate: it emits nothing and leaves the mirror
alone. -/
lemma constructStep_of_present (env : ReplicaEnv) (ds : Bool) (time allowed : Nat)
    (p : PlayerId) (h : Handle) (nid bits : Nat) (m : List RemoteObject)
    {ro : RemoteObject} (hro : roLookup h m = some ro) :
    (constructStep env ds time allowed p h nid bits m).mirror = m ∧
    (constructStep env ds time allowed p h nid bits m).evs = [] ∧
    ((constructStep env ds time allowed p h nid bits m).bits = bits ∨
      (constructStep env ds time allowed p h nid bits m).bits =
        bits &&& (31 ^^^ (REPLICA_EXPLICIT_CONSTRUCTION ||| REPLICA_IMPLICIT_CONSTRUCTION))) := by
  unfold constructStep
  by_cases hb : bits &&& (REPLICA_EXPLICIT_CONSTRUCTION ||| REPLICA_IMPLICIT_CONSTRUCTION) ≠ 0
  · rw [if_pos hb, hro]
    exact ⟨rfl, rfl, Or.inr rfl⟩
  · rw [if_neg hb]
    exact ⟨rfl, rfl, Or.inl rfl⟩

/-- Evaluation of the scope stage for a queued SCOPE_TRUE with a mirror
entry present, the interface allowed and a callback that writes. -/
lemma scopeStep_true_eval (env : ReplicaEnv) (allowed : Nat) (p : PlayerId)
    (h : Handle) (nid bits : Nat) (m : List RemoteObject) {ro : RemoteObject}
    (hro : roLookup h m = some ro) (hlt : bits < 32)
    (hbit : bits &&& REPLICA_SCOPE_TRUE ≠ 0)
    (hallow : allowed &&& REPLICA_SEND_SCOPE_CHANGE ≠ 0)
    (hw : env.sendScopeChangeWrites h = true) :
    scopeStep env allowed p h nid bits m =
      ⟨(bits &&& (31 ^^^ (REPLICA_SCOPE_TRUE ||| REPLICA_SCOPE_FALSE))) ||| REPLICA_SERIALIZE,
        roSetScope h true m,
        [⟨.callSendScopeChangeTrue, h, nid, p⟩, ⟨.wireScopeChange, h, nid, p⟩]⟩ := by
  have hguard := ((bit_facts bits hlt).2.1) hbit
  unfold scopeStep
  rw [if_pos hguard, hro]
  dsimp only
  rw [if_pos hallow, hw]
  have hd : decide (bits &&& REPLICA_SCOPE_TRUE ≠ 0) = true := decide_eq_true hbit
  rw [hd]
  rfl

/-- Evaluation of the serialize stage when the mirror entry is in scope and
the interface is allowed: the capability is invoked once; the wire record
is emitted exactly when the capability writes. -/
lemma serializeStep_eval_inScope (env : ReplicaEnv) (time allowed : Nat) (p : PlayerId)
    (h : Handle) (nid bits : Nat) (m : List RemoteObject) {ro : RemoteObject}
    (hro : roLookup h m = some ro) (hsc : ro.inScope = true)
    (hallow : allowed &&& REPLICA_SEND_SERIALIZE ≠ 0)
    (hbit : bits &&& REPLICA_SERIALIZE ≠ 0) :
    (serializeStep env time allowed p h nid bits m).evs =
      (if env.serializeWrites h then
        [⟨.callSerialize, h, nid, p⟩, ⟨.wireSerialize, h, nid, p⟩]
       else [⟨.callSerialize, h, nid, p⟩]) := by
  unfold serializeStep
  rw [if_pos hbit, hro]
  dsimp only
  rw [if_neg (fun hzero => hallow hzero), hsc]
  rw [if_pos rfl]
  split <;> rfl

/-- Dispatch of a record carrying SCOPE_TRUE against a mirror that already
holds the handle, with the interfaces allowed, the network id resolved and
a scope callback that writes: exactly one `SendScopeChange` invocation,
and — since the scope became true — exactly one `Serialize` invocation in
the same dispatch when the serialize interface is allowed. -/
lemma dispatchCommand_scope_true_counts {env : ReplicaEnv} {ds : Bool}
    {time allowed : Nat} {p : PlayerId} {c : CommandStruct} {m : List RemoteObject}
    {nid : Nat} {ro : RemoteObject}
    (hnid : env.networkId c.replica = some nid)
    (hro : roLookup c.replica m = some ro)
    (hlt : c.command < 32)
    (hbit : c.command &&& REPLICA_SCOPE_TRUE ≠ 0)
    (hallow : allowed &&& REPLICA_SEND_SCOPE_CHANGE ≠ 0)
    (hw : env.sendScopeChangeWrites c.replica = true) :
    countTag (fun t => t == .callSendScopeChangeTrue || t == .callSendScopeChangeFalse)
        c.replica p (dispatchCommand env ds time allowed p c m).evs = 1 ∧
    (allowed &&& REPLICA_SEND_SERIALIZE ≠ 0 →
      countTag (fun t => t == .callSerialize) c.replica p
        (dispatchCommand env ds time allowed p c m).evs = 1) := by
  unfold dispatchCommand
  rw [hnid]
  dsimp only
  obtain ⟨hm1, he1, hb1⟩ :=
    constructStep_of_present env ds time allowed p c.replica nid c.command m hro
  have hbit1 : (constructStep env ds time allowed p c.replica nid c.command m).bits
      &&& REPLICA_SCOPE_TRUE ≠ 0 := by
    rcases hb1 with hb | hb <;> rw [hb]
    · exact hbit
    · exact ((bit_facts c.command hlt).1) hbit
  have hlt1 : (constructStep env ds time allowed p c.replica nid c.command m).bits < 32 := by
    rcases hb1 with hb | hb <;> rw [hb]
    · exact hlt
    · exact (bit_facts c.command hlt).2.2.2.1
  have hroc : roLookup c.replica
      (constructStep env ds time allowed p c.replica nid c.command m).mirror = some ro := by
    rw [hm1]; exact hro
  have hscope := scopeStep_true_eval env allowed p c.replica nid
    (constructStep env ds time allowed p c.replica nid c.command m).bits
    (constructStep env ds time allowed p c.replica nid c.command m).mirror
    hroc hlt1 hbit1 hallow hw
  rw [hscope, he1, hm1]
  dsimp only
  set bits1 := (constructStep env ds time allowed p c.replica nid c.command m).bits with hbits1
  set bits2 := (bits1 &&& (31 ^^^ (REPLICA_SCOPE_TRUE ||| REPLICA_SCOPE_FALSE)))
    ||| REPLICA_SERIALIZE with hbits2
  have hro2 : roLookup c.replica (roSetScope c.replica true m) =
      some { ro with inScope := true } := by
    rw [roLookup_roSetScope_eq, hro]
    rfl
  have hbit2 : bits2 &&& REPLICA_SERIALIZE ≠ 0 :=
    (bit_facts bits1 hlt1).2.2.1
  constructor
  · rw [List.nil_append, countTag_append]
    have hser : countTag
        (fun t => t == .callSendScopeChangeTrue || t == .callSendScopeChangeFalse)
        c.replica p
        (serializeStep env time allowed p c.replica nid bits2
          (roSetScope c.replica true m)).evs = 0 := by
      apply countTag_eq_zero_of_tags
      intro e he
      rcases (serializeStep_evs_mem e he).2.2.2 with ht | ht <;> rw [ht] <;> rfl
    rw [hser]
    simp [countTag]
  · intro hallow2
    rw [List.nil_append, countTag_append]
    have hsc : countTag (fun t => t == .callSerialize) c.replica p
        ([⟨.callSendScopeChangeTrue, c.replica, nid, p⟩,
          ⟨.wireScopeChange, c.replica, nid, p⟩] : List Event) = 0 := by
      simp [countTag]
    rw [hsc]
    rw [serializeStep_eval_inScope env time allowed p c.replica nid bits2
      (roSetScope c.replica true m) hro2 rfl hallow2 hbit2]
    split <;> simp [countTag]

/-- The construct stage with no network id is never reached; dispatch of a
record whose replica has no network id does nothing at all. -/
lemma dispatchCommand_no_nid {env : ReplicaEnv} {ds : Bool} {time allowed : Nat}
    {p : PlayerId} {c : CommandStruct} {m : List RemoteObject}
    (hnid : env.networkId c.replica = none) :
    dispatchCommand env ds time allowed p c m = ⟨c.command, m, []⟩ := by
  unfold dispatchCommand
  rw [hnid]

/-- Duplicate construct: when a mirror entry for the record's handle
already exists at dispatch time, no `SendConstruction` invocation and no
CONSTRUCT wire record is produced for that record. -/
lemma dispatchCommand_construct_skip {env : ReplicaEnv} {ds : Bool}
    {time allowed : Nat} {p : PlayerId} {c : CommandStruct} {m : List RemoteObject}
    {ro : RemoteObject} (hro : roLookup c.replica m = some ro) :
    countTag (fun t => t == .callSendConstruction || t == .wireConstruct) c.replica p
      (dispatchCommand env ds time allowed p c m).evs = 0 := by
  unfold dispatchCommand
  cases hnid : env.networkId c.replica with
  | none => simp [countTag]
  | some nid =>
    dsimp only
    obtain ⟨hm1, he1, _⟩ :=
      constructStep_of_present env ds time allowed p c.replica nid c.command m hro
    rw [he1, List.nil_append, countTag_append]
    have h2 : countTag (fun t => t == .callSendConstruction || t == .wireConstruct)
        c.replica p (scopeStep env allowed p c.replica nid
          (constructStep env ds time allowed p c.replica nid c.command m).bits
          (constructStep env ds time allowed p c.replica nid c.command m).mirror).evs = 0 := by
      apply countTag_eq_zero_of_tags
      intro e he
      rcases (scopeStep_evs_mem e he).2.2.2 with ht | ht | ht <;> rw [ht] <;> rfl
    have h3 : countTag (fun t => t == .callSendConstruction || t == .wireConstruct)
        c.replica p (serializeStep env time allowed p c.replica nid
          (scopeStep env allowed p c.replica nid
            (constructStep env ds time allowed p c.replica nid c.command m).bits
            (constructStep env ds time allowed p c.replica nid c.command m).mirror).bits
          (scopeStep env allowed p c.replica nid
            (constructStep env ds time allowed p c.replica nid c.command m).bits
            (constructStep env ds time allowed p c.replica nid c.command m).mirror).mirror).evs
        = 0 := by
      apply countTag_eq_zero_of_tags
      intro e he
      rcases (serializeStep_evs_mem e he).2.2.2 with ht | ht <;> rw [ht] <;> rfl
    rw [h2, h3]

/-- A SERIALIZE wire record comes only out of the serialize stage, and only
when at that moment the mirror holds the handle with scope true and the
serialize interface is allowed; the emitted record leaves the entry in
scope. -/
lemma serializeStep_wireSerialize {env : ReplicaEnv} {time allowed : Nat}
    {p : PlayerId} {h : Handle} {nid bits : Nat} {m : List RemoteObject} {e : Event}
    (he : e ∈ (serializeStep env time allowed p h nid bits m).evs)
    (ht : e.tag = .wireSerialize) :
    allowed &&& REPLICA_SEND_SERIALIZE ≠ 0 ∧
    (∃ ro, roLookup h m = some ro ∧ ro.inScope = true) ∧
    (∃ ro', roLookup h (serializeStep env time allowed p h nid bits m).mirror = some ro' ∧
      ro'.inScope = true) := by
  by_cases hbit : bits &&& REPLICA_SERIALIZE ≠ 0
  · cases hro : roLookup h m with
    | none =>
      have hnil : (serializeStep env time allowed p h nid bits m).evs = [] := by
        unfold serializeStep
        rw [if_pos hbit, hro]
      rw [hnil] at he
      exact absurd he (List.not_mem_nil e)
    | some ro =>
      by_cases hallow : allowed &&& REPLICA_SEND_SERIALIZE = 0
      · have hnil : (serializeStep env time allowed p h nid bits m).evs = [] := by
          unfold serializeStep
          rw [if_pos hbit, hro]
          dsimp only
          rw [if_pos hallow]
        rw [hnil] at he
        exact absurd he (List.not_mem_nil e)
      · by_cases hsc : ro.inScope = true
        · by_cases hw : env.serializeWrites h = true
          · have heq : serializeStep env time allowed p h nid bits m =
                ⟨bits &&& (31 ^^^ REPLICA_SERIALIZE), roSetLastSend h time m,
                  [⟨.callSerialize, h, nid, p⟩, ⟨.wireSerialize, h, nid, p⟩]⟩ := by
              unfold serializeStep
              rw [if_pos hbit, hro]
              dsimp only
              rw [if_neg hallow, hsc, if_pos rfl, hw, if_pos rfl]
            refine ⟨hallow, ⟨ro, rfl, hsc⟩, ⟨{ ro with lastSendTime := time }, ?_, hsc⟩⟩
            rw [heq]
            show roLookup h (roSetLastSend h time m) = _
            rw [roLookup_roSetLastSend_eq, hro]
            rfl
          · have hone : (serializeStep env time allowed p h nid bits m).evs =
                [⟨.callSerialize, h, nid, p⟩] := by
              unfold serializeStep
              rw [if_pos hbit, hro]
              dsimp only
              rw [if_neg hallow, hsc, if_pos rfl, if_neg hw]
            rw [hone] at he
            simp only [List.mem_cons, List.not_mem_nil, or_false] at he
            rw [he] at ht
            exact absurd ht (by simp)
        · have hnil : (serializeStep env time allowed p h nid bits m).evs = [] := by
            unfold serializeStep
            rw [if_pos hbit, hro]
            dsimp only
            rw [if_neg hallow, if_neg hsc]
          rw [hnil] at he
          exact absurd he (List.not_mem_nil e)
  · have hnil : (serializeStep env time allowed p h nid bits m).evs = [] := by
      unfold serializeStep
      rw [if_neg hbit]
    rw [hnil] at he
    exact absurd he (List.not_mem_nil e)

lemma dispatchCommand_wireSerialize {env : ReplicaEnv} {ds : Bool}
    {time allowed : Nat} {p : PlayerId} {c : CommandStruct} {m : List RemoteObject}
    {e : Event} (he : e ∈ (dispatchCommand env ds time allowed p c m).evs)
    (ht : e.tag = .wireSerialize) :
    e.handle = c.replica ∧ e.player = p ∧ allowed &&& REPLICA_SEND_SERIALIZE ≠ 0 ∧
    ∃ ro', roLookup c.replica (dispatchCommand env ds time allowed p c m).mirror = some ro' ∧
      ro'.inScope = true := by
  obtain ⟨hh, hp⟩ := dispatchCommand_evs_mem e he
  refine ⟨hh, hp, ?_⟩
  unfold dispatchCommand at he
  cases hnid : env.networkId c.replica with
  | none =>
    rw [hnid] at he
    exact absurd he (List.not_mem_nil e)
  | some nid =>
    rw [hnid] at he
    dsimp only at he
    have hmir : (dispatchCommand env ds time allowed p c m).mirror =
        (serializeStep env time allowed p c.replica nid
          (scopeStep env allowed p c.replica nid
            (constructStep env ds time allowed p c.replica nid c.command m).bits
            (constructStep env ds time allowed p c.replica nid c.command m).mirror).bits
          (scopeStep env allowed p c.replica nid
            (constructStep env ds time allowed p c.replica nid c.command m).bits
            (constructStep env ds time allowed p c.replica nid c.command m).mirror).mirror).mirror := by
      unfold dispatchCommand
      rw [hnid]
    rw [hmir]
    simp only [List.mem_append] at he
    rcases he with he | he | he
    · rcases (constructStep_evs_mem e he).2.2.2 with hx | hx <;> rw [hx] at ht <;>
        exact absurd ht (by simp)
    · rcases (scopeStep_evs_mem e he).2.2.2 with hx | hx | hx <;> rw [hx] at ht <;>
        exact absurd ht (by simp)
    · obtain ⟨ha, _, hout⟩ := serializeStep_wireSerialize he ht
      exact ⟨ha, hout⟩

lemma dispatchList_wireSerialize (env : ReplicaEnv) (ds : Bool) (time : Nat)
    (reg : List RegisteredReplica) (p : PlayerId) :
    ∀ (cmds : List CommandStruct) (m : List RemoteObject) (e : Event),
      (cmds.map CommandStruct.replica).Pairwise (· ≠ ·) →
      e ∈ (dispatchList env ds time reg p cmds m).evs → e.tag = .wireSerialize →
      e.player = p ∧ allowedOf reg e.handle &&& REPLICA_SEND_SERIALIZE ≠ 0 ∧
      ∃ ro, roLookup e.handle (dispatchList env ds time reg p cmds m).mirror = some ro ∧
        ro.inScope = true := by
  intro cmds
  induction cmds with
  | nil => intro m e _ he _; simp [dispatchList] at he
  | cons c rest ih =>
    intro m e hdist he ht
    simp only [List.map_cons, List.pairwise_cons] at hdist
    unfold dispatchList at he ⊢
    dsimp only at he ⊢
    simp only [List.mem_append] at he
    rcases he with he | he
    · obtain ⟨h1, h2, h3, ro', hro', hsc'⟩ := dispatchCommand_wireSerialize he ht
      refine ⟨h2, by rw [h1]; exact h3, ⟨ro', ?_, hsc'⟩⟩
      rw [h1]
      rw [dispatchList_mirror_ne env ds time reg p rest _ c.replica
        (fun hcontra => by
          obtain ⟨a, hmema, ha⟩ := List.mem_map.mp hcontra
          exact hdist.1 a.replica (List.mem_map_of_mem _ hmema) ha.symm)]
      exact hro'
    · exact ih _ e hdist.2 he ht

lemma participantTick_wireSerialize {env : ReplicaEnv} {ds : Bool} {time : Nat}
    {reg : List RegisteredReplica} {part : ParticipantStruct} {e : Event}
    (hw : (part.commandList.map CommandStruct.replica).Pairwise (· ≠ ·))
    (he : e ∈ (participantTick env ds time reg part).2)
    (ht : e.tag = .wireSerialize) :
    e.player = part.playerId ∧ allowedOf reg e.handle &&& REPLICA_SEND_SERIALIZE ≠ 0 ∧
    ∃ ro, roLookup e.handle (participantTick env ds time reg part).1.remoteObjectList
      = some ro ∧ ro.inScope = true := by
  unfold participantTick at he ⊢
  dsimp only at he ⊢
  split at he
  · simp only [List.mem_append, List.mem_cons, List.not_mem_nil, or_false] at he
    rcases he with he | rfl | rfl
    · rw [if_pos (by assumption)]
      exact dispatchList_wireSerialize env ds time reg part.playerId
        part.commandList part.remoteObjectList e hw he ht
    · exact absurd ht (by simp)
    · exact absurd ht (by simp)
  · rw [if_neg (by assumption)]
    exact dispatchList_wireSerialize env ds time reg part.playerId
      part.commandList part.remoteObjectList e hw he ht

/-- Over one full tick from a well-formed state: every SERIALIZE wire
record was emitted for a (participant, handle) whose mirror entry — both
at the moment of dispatch and in the post-tick state — has `inScope`
true, with the serialize interface allowed. -/
lemma OnUpdate_wireSerialize {env : ReplicaEnv} {time : Nat} {s : ReplicaManager}
    {e : Event} (hwf : WF s) (he : e ∈ (OnUpdate env time s).2)
    (ht : e.tag = .wireSerialize) :
    allowedOf s.replicatedObjects e.handle &&& REPLICA_SEND_SERIALIZE ≠ 0 ∧
    ∃ part ∈ (OnUpdate env time s).1.participantList, part.playerId = e.player ∧
      ∃ ro, roLookup e.handle part.remoteObjectList = some ro ∧ ro.inScope = true := by
  unfold OnUpdate at he ⊢
  dsimp only at he ⊢
  obtain ⟨part, hmem, hev⟩ := mem_ticks_flatten he
  have hwpart : (part.commandList.map CommandStruct.replica).Pairwise (· ≠ ·) :=
    ((hwf.2 part hmem).2.1).imp fun hlt => Nat.ne_of_lt hlt
  obtain ⟨hplayer, hallow, ro, hro, hsc⟩ := participantTick_wireSerialize hwpart hev ht
  refine ⟨hallow, (participantTick env s.defaultScope time s.replicatedObjects part).1,
    ?_, hplayer ▸ (participantTick_playerId env s.defaultScope time s.replicatedObjects part),
    ro, hro, hsc⟩
  rw [List.map_map]
  exact List.mem_map_of_mem _ hmem

/-! ## Destruction and dereference: state characterizations -/

lemma Destruct_participantList {env : ReplicaEnv} {s : ReplicaManager} {h : Handle}
    {pid : PlayerId} {bc : Bool} {rr : RegisteredReplica}
    (hreg : regLookup h s.replicatedObjects = some rr) :
    (Destruct env h pid bc s).1.participantList =
      s.participantList.map (fun part =>
        if isTarget pid bc part.playerId then (destructAtParticipant env h part).1
        else part) := by
  unfold Destruct
  rw [hreg]
  dsimp only
  have hmap : (List.map Prod.fst (s.participantList.map fun part =>
      if isTarget pid bc part.playerId then destructAtParticipant env h part
      else (part, ([] : List Event)))) =
      s.participantList.map (fun part =>
        if isTarget pid bc part.playerId then (destructAtParticipant env h part).1
        else part) := by
    rw [List.map_map]
    apply List.map_congr_left
    intro part _
    dsimp only [Function.comp]
    split <;> rfl
  split <;> exact hmap

lemma Destruct_registry {env : ReplicaEnv} {s : ReplicaManager} {h : Handle}
    {pid : PlayerId} {bc : Bool} {rr : RegisteredReplica}
    (hreg : regLookup h s.replicatedObjects = some rr) :
    (Destruct env h pid bc s).1.replicatedObjects =
      (if pid = UNASSIGNED_PLAYER_ID ∧ bc then
        s.replicatedObjects.filter fun r => r.replica ≠ h
       else s.replicatedObjects) := by
  unfold Destruct
  rw [hreg]
  dsimp only
  split <;> simp_all

lemma Destruct_evs {env : ReplicaEnv} {s : ReplicaManager} {h : Handle}
    {pid : PlayerId} {bc : Bool} {rr : RegisteredReplica}
    (hreg : regLookup h s.replicatedObjects = some rr) :
    (Destruct env h pid bc s).2 =
      ((s.participantList.map fun part =>
        if isTarget pid bc part.playerId then (destructAtParticipant env h part).2
        else []).flatten) := by
  unfold Destruct
  rw [hreg]
  dsimp only
  have hmap : (List.map Prod.snd (s.participantList.map fun part =>
      if isTarget pid bc part.playerId then destructAtParticipant env h part
      else (part, ([] : List Event)))) =
      s.participantList.map (fun part =>
        if isTarget pid bc part.playerId then (destructAtParticipant env h part).2
        else []) := by
    rw [List.map_map]
    apply List.map_congr_left
    intro part _
    dsimp only [Function.comp]
    split <;> rfl
  rw [hmap]

lemma destructAtParticipant_cmdLookup (env : ReplicaEnv) (h : Handle)
    (part : ParticipantStruct) :
    cmdLookup h (destructAtParticipant env h part).1.commandList = none := by
  unfold destructAtParticipant
  split <;> exact cmdLookup_cmdPurge_self h part.commandList

lemma destructAtParticipant_roLookup (env : ReplicaEnv) (h : Handle)
    (part : ParticipantStruct) :
    roLookup h (destructAtParticipant env h part).1.remoteObjectList = none := by
  unfold destructAtParticipant
  cases hro : roLookup h part.remoteObjectList with
  | some ro =>
    dsimp only
    exact roLookup_roPurge_self h _
  | none =>
    dsimp only
    exact hro

lemma destructAtParticipant_evs (env : ReplicaEnv) (h : Handle)
    (part : ParticipantStruct) :
    (destructAtParticipant env h part).2 =
      (match roLookup h part.remoteObjectList with
       | some _ =>
         [⟨.callSendDestruction, h, (env.networkId h).getD 0, part.playerId⟩,
          ⟨.wireDestruct, h, (env.networkId h).getD 0, part.playerId⟩]
       | none => []) := by
  unfold destructAtParticipant
  cases roLookup h part.remoteObjectList <;> rfl

/-- With all participants targeted, destruction at a participant is exactly
the purge of the handle performed by dereference. -/
lemma destructAtParticipant_fst_eq_purge (env : ReplicaEnv) (h : Handle)
    (part : ParticipantStruct) :
    (destructAtParticipant env h part).1 = purgeHandle h part := by
  unfold destructAtParticipant purgeHandle
  cases hro : roLookup h part.remoteObjectList with
  | some ro => rfl
  | none =>
    dsimp only
    rw [roPurge_of_none hro]

/-! ## Test environments and scenario states -/

/-- An environment where every replica carries network id 42 and every
capability writes. -/
def envAll42 : ReplicaEnv :=
  ⟨fun _ => some 42, fun _ => true, fun _ => true, fun _ => true⟩

/-- An environment where no replica has a network id yet. -/
def envNoId : ReplicaEnv :=
  ⟨fun _ => none, fun _ => true, fun _ => true, fun _ => true⟩

/-- A placeholder participant used with `Option.getD` in closed statements. -/
def dfltPart : ParticipantStruct := ⟨0, false, [], []⟩

/-- S3 (merge SCOPE): participant 1; replica 5 constructed and dispatched;
then `set_scope true` followed by `set_scope false` before the next tick. -/
def s3state : ReplicaManager :=
  run [.addParticipant 1, .construct 5 1 false, .tick envAll42 0,
    .setScope 5 true 1 false, .setScope 5 false 1 false] initialReplicaManager

/-- S1 (out-of-order id assignment): participant 1; `construct` issued while
the replica has no network id. -/
def s1state : ReplicaManager :=
  run [.addParticipant 1, .construct 5 1 false] initialReplicaManager

/-- S1 after the first tick, which could not resolve the network id. -/
def s1afterTick : ReplicaManager := (OnUpdate envNoId 0 s1state).1

/-- R1 (loopback): the sender after one construct and one tick. -/
def r1out : ReplicaManager × List Event := OnUpdate envAll42 0 s1state

/-- R1: a duplicate construct issued after the first dispatch. -/
def r1dup : ReplicaManager × List Event :=
  OnUpdate envAll42 1 (run [.construct 5 1 false] r1out.1)

/-! ## The claims -/

/-- C1: for every participant and every replica handle, after any sequence
of user calls and ticks from the initial manager, the participant's
command queue contains at most one record keyed by that handle; and a new
enqueue for an already-queued handle merges into the existing record by
bitwise OR of command bits (`mergeCommand`) in place, leaving the number
of records unchanged, rather than appending a second record. -/
theorem claim_C1_queue_unique_merge (calls : List UserCall) (h : Handle)
    (part : ParticipantStruct)
    (hmem : part ∈ (run calls initialReplicaManager).participantList) :
    (part.commandList.filter fun c => c.replica == h).length ≤ 1 ∧
    (∀ (bits : Nat) (c0 : CommandStruct), cmdLookup h part.commandList = some c0 →
      cmdLookup h (cmdEnqueue h bits part.commandList) =
        some ⟨h, mergeCommand c0.command bits⟩ ∧
      (cmdEnqueue h bits part.commandList).length = part.commandList.length) := by
  have hwf := wf_reachable calls
  have hsort := (hwf.2 part hmem).2.1
  refine ⟨count_le_one_of_pairwise h part.commandList hsort, ?_⟩
  intro bits c0 hc0
  constructor
  · rw [cmdLookup_cmdEnqueue_self hsort, hc0]
  · have hmemk : h ∈ part.commandList.map CommandStruct.replica :=
      (cmdLookup_mem hc0).2 ▸ List.mem_map_of_mem CommandStruct.replica (cmdLookup_mem hc0).1
    have hkeys : (cmdEnqueue h bits part.commandList).map CommandStruct.replica =
        part.commandList.map CommandStruct.replica :=
      cmdEnqueue_keys_of_mem hsort hmemk
    have := congrArg List.length hkeys
    simpa using this

/-- Witness for C1 at a concrete run: participant 1 after a construct and a
serialize signal for handle 5 holds at most one record for handle 5. -/
theorem claim_C1_witness :
    ((((run [.addParticipant 1, .construct 5 1 false, .signalSerialize 5 1 false]
        initialReplicaManager).participantList.headD dfltPart).commandList.filter
      fun c => c.replica == 5).length ≤ 1) :=
  (claim_C1_queue_unique_merge
    [.addParticipant 1, .construct 5 1 false, .signalSerialize 5 1 false] 5
    ((run [.addParticipant 1, .construct 5 1 false, .signalSerialize 5 1 false]
        initialReplicaManager).participantList.headD dfltPart) (by decide)).1

/-- C2: in every reachable state the two scope bits are never both set on a
queued record, and in the S3 scenario — `set_scope(5, true, P1)` then
`set_scope(5, false, P1)` before a tick — the queued record carries
SCOPE_FALSE only, and the following tick invokes `SendScopeChange` with
false exactly once and with true never. -/
theorem claim_C2_scope_bits_exclusive :
    (∀ (calls : List UserCall) (part : ParticipantStruct) (c : CommandStruct),
      part ∈ (run calls initialReplicaManager).participantList →
      c ∈ part.commandList →
      ¬(c.command &&& REPLICA_SCOPE_TRUE ≠ 0 ∧ c.command &&& REPLICA_SCOPE_FALSE ≠ 0)) ∧
    cmdLookup 5 ((partLookup 1 s3state.participantList).getD dfltPart).commandList =
      some ⟨5, REPLICA_SCOPE_FALSE⟩ ∧
    countTag (fun t => t == .callSendScopeChangeFalse) 5 1 (OnUpdate envAll42 1 s3state).2 = 1 ∧
    countTag (fun t => t == .callSendScopeChangeTrue) 5 1 (OnUpdate envAll42 1 s3state).2 = 0 ∧
    countTag (fun t => t == .callSerialize) 5 1 (OnUpdate envAll42 1 s3state).2 = 0 := by
  refine ⟨?_, by decide, by decide, by decide, by decide⟩
  intro calls part c hmem hc
  exact ((wf_reachable calls).2 part hmem).2.2 c hc |>.2

/-- Witness for C2's universally quantified invariant at a concrete run. -/
theorem claim_C2_witness :
    ¬((⟨5, REPLICA_SCOPE_FALSE⟩ : CommandStruct).command &&& REPLICA_SCOPE_TRUE ≠ 0 ∧
      (⟨5, REPLICA_SCOPE_FALSE⟩ : CommandStruct).command &&& REPLICA_SCOPE_FALSE ≠ 0) :=
  claim_C2_scope_bits_exclusive.1
    [.addParticipant 1, .setScope 5 true 1 false, .setScope 5 false 1 false]
    ((run [.addParticipant 1, .setScope 5 true 1 false, .setScope 5 false 1 false]
      initialReplicaManager).participantList.headD dfltPart)
    ⟨5, REPLICA_SCOPE_FALSE⟩ (by decide) (by decide)

/-- C8 counterexample: with participant 1, `construct` is issued for handle
2 first and for handle 1 second, so the claim's insertion order is
[2, 1]; but the tick dispatches the construct events in the order [1, 2],
because `commandList` is kept sorted by the replica pointer ("Sorted list
of Replica*, sorted by pointer", `ReplicaManager.h` line 289), not in
insertion order. -/
theorem claim_C8_counterexample :
    (((OnUpdate envAll42 0 (run [.addParticipant 1, .construct 2 1 false,
        .construct 1 1 false] initialReplicaManager)).2.filter
      fun e => e.tag == EvTag.callSendConstruction).map Event.handle = [1, 2]) ∧
    ¬(((OnUpdate envAll42 0 (run [.addParticipant 1, .construct 2 1 false,
        .construct 1 1 false] initialReplicaManager)).2.filter
      fun e => e.tag == EvTag.callSendConstruction).map Event.handle = [2, 1]) := by
  decide

/-- C8 amended: for any one participant in any reachable state, the tick
walks the command queue in its list order, which is ascending handle
(pointer) order — the queue's handle sequence is strictly sorted — and
merging new bits into an existing record does not change the queue's
handle sequence (so merges never reorder records). -/
theorem claim_C8_dispatch_order_sorted (calls : List UserCall)
    (part : ParticipantStruct)
    (hmem : part ∈ (run calls initialReplicaManager).participantList) :
    (part.commandList.map CommandStruct.replica).Pairwise (· < ·) ∧
    (∀ (h : Handle) (bits : Nat), h ∈ part.commandList.map CommandStruct.replica →
      (cmdEnqueue h bits part.commandList).map CommandStruct.replica =
        part.commandList.map CommandStruct.replica) := by
  have hwf := wf_reachable calls
  have hsort := (hwf.2 part hmem).2.1
  exact ⟨hsort, fun h bits hmemk => cmdEnqueue_keys_of_mem hsort hmemk⟩

/-- Witness for the amended C8 at a concrete run. -/
theorem claim_C8_witness :
    ((((run [.addParticipant 1, .construct 2 1 false, .construct 1 1 false]
        initialReplicaManager).participantList.headD dfltPart).commandList.map
      CommandStruct.replica).Pairwise (· < ·)) :=
  (claim_C8_dispatch_order_sorted
    [.addParticipant 1, .construct 2 1 false, .construct 1 1 false]
    ((run [.addParticipant 1, .construct 2 1 false, .construct 1 1 false]
      initialReplicaManager).participantList.headD dfltPart) (by decide)).1

/-- C9: a queued record whose replica has no network id at dispatch time is
skipped whole — no events, bits unchanged, mirror unchanged — and stays
queued; in the S1 scenario the tick before the id assignment emits
nothing and keeps the EXPLICIT_CONSTRUCTION record, and the tick after
`set_network_id(42)` emits exactly one CONSTRUCT wire record carrying
network id 42 to participant 1 and inserts the mirror entry. -/
theorem claim_C9_no_network_id_defers :
    (∀ (env : ReplicaEnv) (ds : Bool) (time allowed : Nat) (p : PlayerId)
      (c : CommandStruct) (m : List RemoteObject),
      env.networkId c.replica = none →
      dispatchCommand env ds time allowed p c m = ⟨c.command, m, []⟩) ∧
    (OnUpdate envNoId 0 s1state).2 = [] ∧
    cmdLookup 5 ((partLookup 1 s1afterTick.participantList).getD dfltPart).commandList =
      some ⟨5, REPLICA_EXPLICIT_CONSTRUCTION⟩ ∧
    ((OnUpdate envAll42 1 s1afterTick).2.filter fun e => e.tag == EvTag.wireConstruct) =
      [⟨.wireConstruct, 5, 42, 1⟩] ∧
    roLookup 5 ((partLookup 1 (OnUpdate envAll42 1 s1afterTick).1.participantList).getD
      dfltPart).remoteObjectList = some ⟨5, false, 1⟩ := by
  refine ⟨?_, by decide, by decide, by decide, by decide⟩
  intro env ds time allowed p c m hnid
  exact dispatchCommand_no_nid hnid

/-- Witness for C9's universally quantified deferral clause. -/
theorem claim_C9_witness :
    dispatchCommand envNoId false 0 255 1 ⟨5, REPLICA_EXPLICIT_CONSTRUCTION⟩ [] =
      ⟨REPLICA_EXPLICIT_CONSTRUCTION, [], []⟩ :=
  claim_C9_no_network_id_defers.1 envNoId false 0 255 1
    ⟨5, REPLICA_EXPLICIT_CONSTRUCTION⟩ [] rfl

/-- C4: dereference removes the handle from the global registry and from
every participant's command queue and mirror, emits no wire traffic (its
event list is empty by construction), and leaves everything else — the
registry records of other handles, each participant's id and pending
download-complete flag, and each participant's queue records and mirror
entries for other handles — unchanged. -/
theorem claim_C4_dereference_cascades (calls : List UserCall) (h : Handle) :
    (DereferencePointer h (run calls initialReplicaManager)).2 = [] ∧
    regLookup h (DereferencePointer h (run calls initialReplicaManager)).1.replicatedObjects
      = none ∧
    (∀ part ∈ (DereferencePointer h (run calls initialReplicaManager)).1.participantList,
      cmdLookup h part.commandList = none ∧ roLookup h part.remoteObjectList = none) ∧
    (∀ h', h' ≠ h →
      regLookup h' (DereferencePointer h (run calls initialReplicaManager)).1.replicatedObjects
        = regLookup h' (run calls initialReplicaManager).replicatedObjects) ∧
    (∀ (p : PlayerId) (h' : Handle), h' ≠ h →
      (partLookup p (DereferencePointer h
          (run calls initialReplicaManager)).1.participantList).map
        (fun part => (part.playerId, part.callDownloadCompleteCB,
          cmdLookup h' part.commandList, roLookup h' part.remoteObjectList)) =
      (partLookup p (run calls initialReplicaManager).participantList).map
        (fun part => (part.playerId, part.callDownloadCompleteCB,
          cmdLookup h' part.commandList, roLookup h' part.remoteObjectList))) := by
  refine ⟨rfl, regLookup_filter_self h _, ?_, ?_, ?_⟩
  · intro part hmem
    unfold DereferencePointer at hmem
    dsimp only at hmem
    obtain ⟨part0, _, hp⟩ := List.mem_map.mp hmem
    rw [← hp]
    exact ⟨cmdLookup_cmdPurge_self h _, roLookup_roPurge_self h _⟩
  · intro h' hne
    exact regLookup_filter_ne hne _
  · intro p h' hne
    show (partLookup p ((run calls initialReplicaManager).participantList.map
      (purgeHandle h))).map _ = _
    rw [partLookup_map_preserve (f := purgeHandle h) (fun part => rfl) p]
    cases partLookup p (run calls initialReplicaManager).participantList with
    | none => rfl
    | some part =>
      simp only [Option.map_some']
      show some (part.playerId, part.callDownloadCompleteCB,
        cmdLookup h' (cmdPurge h part.commandList),
        roLookup h' (roPurge h part.remoteObjectList)) = _
      rw [cmdLookup_cmdPurge_ne hne, roLookup_roPurge_ne hne]

/-- Witness for C4 at a concrete run: after dereferencing handle 5, it is
gone from participant 1's queue and mirror. -/
theorem claim_C4_witness :
    cmdLookup 5 (((DereferencePointer 5 (run [.addParticipant 1, .construct 5 1 false]
        initialReplicaManager)).1.participantList.headD dfltPart)).commandList = none ∧
    roLookup 5 (((DereferencePointer 5 (run [.addParticipant 1, .construct 5 1 false]
        initialReplicaManager)).1.participantList.headD dfltPart)).remoteObjectList = none :=
  (claim_C4_dereference_cascades [.addParticipant 1, .construct 5 1 false] 5).2.2.1
    ((DereferencePointer 5 (run [.addParticipant 1, .construct 5 1 false]
      initialReplicaManager)).1.participantList.headD dfltPart) (by decide)

/-- C6: in every state reachable by user calls and ticks, a SERIALIZE wire
record is emitted to a participant only for a handle whose mirror entry at
that participant has `inScope` true with the serialize interface allowed.
The first conjunct states this over a full tick (the entry is reported in
the post-tick mirror, which the serialize stage leaves in scope and no
later record of the same tick can touch); the second conjunct pins the
moment of dispatch exactly: the serialize stage — the only producer of
SERIALIZE wire records — emits one only if the mirror it is handed holds
the handle with scope true and the interface allowed. -/
theorem claim_C6_serialize_gated_by_scope (calls : List UserCall) (env : ReplicaEnv)
    (t : Nat) (e : Event)
    (he : e ∈ (OnUpdate env t (run calls initialReplicaManager)).2)
    (ht : e.tag = EvTag.wireSerialize) :
    (allowedOf (run calls initialReplicaManager).replicatedObjects e.handle &&&
        REPLICA_SEND_SERIALIZE ≠ 0 ∧
      ∃ part ∈ (OnUpdate env t (run calls initialReplicaManager)).1.participantList,
        part.playerId = e.player ∧
        ∃ ro, roLookup e.handle part.remoteObjectList = some ro ∧ ro.inScope = true) ∧
    (∀ (env' : ReplicaEnv) (time' allowed' : Nat) (p' : PlayerId) (h' : Handle)
      (nid' bits' : Nat) (m' : List RemoteObject) (e' : Event),
      e' ∈ (serializeStep env' time' allowed' p' h' nid' bits' m').evs →
      e'.tag = EvTag.wireSerialize →
      allowed' &&& REPLICA_SEND_SERIALIZE ≠ 0 ∧
      ∃ ro, roLookup h' m' = some ro ∧ ro.inScope = true) := by
  constructor
  · exact OnUpdate_wireSerialize (wf_reachable calls) he ht
  · intro env' time' allowed' p' h' nid' bits' m' e' he' ht'
    obtain ⟨h1, h2, _⟩ := serializeStep_wireSerialize he' ht'
    exact ⟨h1, h2⟩

/-- Witness for C6 at a concrete run that does emit a SERIALIZE record
(default scope on, constructed, then ticked). -/
theorem claim_C6_witness :
    allowedOf (run [.setDefaultScope true, .addParticipant 1, .construct 5 1 false]
        initialReplicaManager).replicatedObjects
      (⟨EvTag.wireSerialize, 5, 42, 1⟩ : Event).handle &&& REPLICA_SEND_SERIALIZE ≠ 0 :=
  (claim_C6_serialize_gated_by_scope
    [.setDefaultScope true, .addParticipant 1, .construct 5 1 false] envAll42 0
    ⟨EvTag.wireSerialize, 5, 42, 1⟩ (by decide) rfl).1.1

/-- C7: a construct dispatched while a mirror entry for the (participant,
handle) pair already exists is skipped as a duplicate — no
`SendConstruction` invocation and no CONSTRUCT wire record (first
conjunct, over all states).  In the loopback scenario, `construct(5, P1)`
plus a tick invokes `SendConstruction` once and emits one CONSTRUCT wire
record; a second `construct(5, P1)` plus a tick adds neither; and inbound
processing of everything emitted invokes the user's receive-construction
callback exactly once for the pair. -/
theorem claim_C7_receive_construction_once :
    (∀ (env : ReplicaEnv) (ds : Bool) (time allowed : Nat) (p : PlayerId)
      (c : CommandStruct) (m : List RemoteObject) (ro : RemoteObject),
      roLookup c.replica m = some ro →
      countTag (fun t => t == .callSendConstruction || t == .wireConstruct) c.replica p
        (dispatchCommand env ds time allowed p c m).evs = 0) ∧
    countTag (fun t => t == .callSendConstruction) 5 1 r1out.2 = 1 ∧
    countTag (fun t => t == .wireConstruct) 5 1 r1out.2 = 1 ∧
    countTag (fun t => t == .callSendConstruction) 5 1 r1dup.2 = 0 ∧
    countTag (fun t => t == .wireConstruct) 5 1 r1dup.2 = 0 ∧
    (processInbound [] (r1out.2 ++ r1dup.2)).2 =
      [⟨.callReceiveConstruction, 42, 42, 1⟩] := by
  refine ⟨?_, by decide, by decide, by decide, by decide, by decide⟩
  intro env ds time allowed p c m ro hro
  exact dispatchCommand_construct_skip hro

/-- Witness for C7's duplicate-skip clause at a concrete input. -/
theorem claim_C7_witness :
    countTag (fun t => t == .callSendConstruction || t == .wireConstruct) 5 1
      (dispatchCommand envAll42 false 0 255 1 ⟨5, REPLICA_EXPLICIT_CONSTRUCTION⟩
        [⟨5, false, 0⟩]).evs = 0 :=
  claim_C7_receive_construction_once.1 envAll42 false 0 255 1
    ⟨5, REPLICA_EXPLICIT_CONSTRUCTION⟩ [⟨5, false, 0⟩] ⟨5, false, 0⟩ rfl

lemma flatten_if_single (f : ParticipantStruct → List Event) (p : PlayerId) :
    ∀ l : List ParticipantStruct, (l.map ParticipantStruct.playerId).Pairwise (· ≠ ·) →
      ((l.map fun part => if isTarget p false part.playerId then f part else []).flatten =
        (match partLookup p l with
         | some part => f part
         | none => [])) := by
  intro l
  induction l with
  | nil => intro _; rfl
  | cons part rest ih =>
    intro hdist
    simp only [List.map_cons, List.pairwise_cons] at hdist
    simp only [List.map_cons, List.flatten_cons]
    by_cases hp : part.playerId = p
    · have hl : partLookup p (part :: rest) = some part := by simp [partLookup, hp]
      rw [hl, if_pos (by simp [isTarget, hp])]
      have hrest : (rest.map fun part' =>
          if isTarget p false part'.playerId then f part' else []).flatten = [] := by
        apply List.flatten_eq_nil_iff.mpr
        intro l' hl'
        obtain ⟨part', hmem', hpl'⟩ := List.mem_map.mp hl'
        rw [← hpl']
        rw [if_neg (by
          simp only [isTarget, Bool.if_false_left]
          intro hcontra
          exact hdist.1 part'.playerId (List.mem_map_of_mem _ hmem')
            (by rw [hp, of_decide_eq_true hcontra]))]
      rw [hrest, List.append_nil]
    · have hl : partLookup p (part :: rest) = partLookup p rest := by
        simp [partLookup, hp]
      rw [hl, if_neg (by simp [isTarget, hp]), List.nil_append]
      exact ih hdist.2

lemma enqueueToTargets_partLookup (h : Handle) (bits : Nat) (pid : PlayerId)
    (bc : Bool) (s : ReplicaManager) (q : PlayerId) :
    partLookup q (enqueueToTargets h bits pid bc s).participantList =
      (partLookup q s.participantList).map fun part =>
        if isTarget pid bc part.playerId then
          { part with commandList := cmdEnqueue h bits part.commandList }
        else part := by
  unfold enqueueToTargets
  dsimp only
  exact partLookup_map_preserve (fun part => by split <;> rfl) q _

lemma ReplicaManager_fields_ext {a b : ReplicaManager}
    (h1 : a.replicatedObjects = b.replicatedObjects)
    (h2 : a.participantList = b.participantList)
    (h3 : a.autoParticipateNewConnections = b.autoParticipateNewConnections)
    (h4 : a.autoConstructToNewParticipants = b.autoConstructToNewParticipants)
    (h5 : a.defaultScope = b.defaultScope)
    (h6 : a.sendChannel = b.sendChannel) : a = b := by
  cases a
  cases b
  simp_all

lemma Destruct_config {env : ReplicaEnv} {s : ReplicaManager} {h : Handle}
    {pid : PlayerId} {bc : Bool} :
    (Destruct env h pid bc s).1.autoParticipateNewConnections =
        s.autoParticipateNewConnections ∧
    (Destruct env h pid bc s).1.autoConstructToNewParticipants =
        s.autoConstructToNewParticipants ∧
    (Destruct env h pid bc s).1.defaultScope = s.defaultScope ∧
    (Destruct env h pid bc s).1.sendChannel = s.sendChannel := by
  unfold Destruct
  cases regLookup h s.replicatedObjects with
  | none => exact ⟨rfl, rfl, rfl, rfl⟩
  | some r =>
    dsimp only
    split <;> exact ⟨rfl, rfl, rfl, rfl⟩

/-- C3: a destruction request for (participant, handle) first drops every
queued command for that pair; when a mirror entry exists it invokes
`SendDestruction` and emits one destruction wire record and removes the
mirror entry, and when none exists it emits nothing; and the tick that
follows transmits no CONSTRUCT or SERIALIZE work for the pair — the
previously queued work was cancelled. -/
theorem claim_C3_destruct_cancels_pending (calls : List UserCall) (env : ReplicaEnv)
    (t : Nat) (h : Handle) (p : PlayerId) (rr : RegisteredReplica)
    (part : ParticipantStruct)
    (hreg : regLookup h (run calls initialReplicaManager).replicatedObjects = some rr)
    (hpart : partLookup p (run calls initialReplicaManager).participantList = some part) :
    (∀ part', partLookup p
        (Destruct env h p false (run calls initialReplicaManager)).1.participantList =
        some part' →
      cmdLookup h part'.commandList = none ∧ roLookup h part'.remoteObjectList = none) ∧
    (Destruct env h p false (run calls initialReplicaManager)).2 =
      (match roLookup h part.remoteObjectList with
       | some _ => [⟨.callSendDestruction, h, (env.networkId h).getD 0, p⟩,
                    ⟨.wireDestruct, h, (env.networkId h).getD 0, p⟩]
       | none => []) ∧
    countTag (fun t => t == .callSendConstruction || t == .wireConstruct ||
        t == .callSerialize || t == .wireSerialize) h p
      (OnUpdate env t (Destruct env h p false (run calls initialReplicaManager)).1).2
      = 0 := by
  have hwf := wf_reachable calls
  have hplayer := (partLookup_mem hpart).2
  have htarget : isTarget p false part.playerId = true := by simp [isTarget, hplayer]
  have hid : ∀ part' : ParticipantStruct,
      ((fun part' => if isTarget p false part'.playerId then
        (destructAtParticipant env h part').1 else part') part').playerId
        = part'.playerId := by
    intro part'
    dsimp only
    split
    · exact destructAtParticipant_playerId env h part'
    · rfl
  have hlk : partLookup p
      (Destruct env h p false (run calls initialReplicaManager)).1.participantList =
      some (destructAtParticipant env h part).1 := by
    rw [Destruct_participantList hreg, partLookup_map_preserve hid p, hpart]
    simp only [Option.map_some']
    rw [if_pos htarget]
  refine ⟨?_, ?_, ?_⟩
  · intro part' hpart'
    rw [hlk] at hpart'
    injection hpart' with hpart'
    rw [← hpart']
    exact ⟨destructAtParticipant_cmdLookup env h part,
      destructAtParticipant_roLookup env h part⟩
  · rw [Destruct_evs hreg, flatten_if_single _ p _
      (hwf.1.imp fun hlt => Nat.ne_of_lt hlt), hpart]
    dsimp only
    rw [destructAtParticipant_evs, hplayer]
  · have hwf' := @WF_Destruct env (run calls initialReplicaManager) h p false hwf
    rw [countTag_OnUpdate env t _ _ h p hwf' rfl rfl, hlk]
    dsimp only
    have hmem' : (destructAtParticipant env h part).1 ∈
        (Destruct env h p false (run calls initialReplicaManager)).1.participantList :=
      (partLookup_mem hlk).1
    have hdist : (((destructAtParticipant env h part).1.commandList.map
        CommandStruct.replica).Pairwise (· ≠ ·)) :=
      ((hwf'.2 _ hmem').2.1).imp fun hlt => Nat.ne_of_lt hlt
    have hple : (destructAtParticipant env h part).1.playerId = p := by
      rw [destructAtParticipant_playerId env h part]
      exact hplayer
    rw [hple]
    obtain ⟨m', hm', hcount⟩ := countTag_dispatchList env
      (Destruct env h p false (run calls initialReplicaManager)).1.defaultScope t
      (Destruct env h p false (run calls initialReplicaManager)).1.replicatedObjects p
      (fun t => t == .callSendConstruction || t == .wireConstruct ||
        t == .callSerialize || t == .wireSerialize) h
      (destructAtParticipant env h part).1.commandList
      (destructAtParticipant env h part).1.remoteObjectList hdist
    rw [hcount, destructAtParticipant_cmdLookup]

/-- Witness for C3 at a concrete run (participant 1, handle 5 constructed
and dispatched, then destructed): the next tick transmits nothing for the
pair. -/
theorem claim_C3_witness :
    countTag (fun t => t == .callSendConstruction || t == .wireConstruct ||
        t == .callSerialize || t == .wireSerialize) 5 1
      (OnUpdate envAll42 1 (Destruct envAll42 5 1 false
        (run [.addParticipant 1, .construct 5 1 false, .tick envAll42 0]
          initialReplicaManager)).1).2 = 0 :=
  (claim_C3_destruct_cancels_pending
    [.addParticipant 1, .construct 5 1 false, .tick envAll42 0] envAll42 1 5 1
    ⟨5, 0, REPLICA_SET_ALL⟩
    ((run [.addParticipant 1, .construct 5 1 false, .tick envAll42 0]
      initialReplicaManager).participantList.headD dfltPart)
    (by decide) (by decide)).2.2

/-- C5: for a (participant, handle) whose mirror entry exists, with the
handle registered, the scope-change interface allowed, the network id
resolved and a scope callback that writes, `set_scope(h, true, p)` causes
exactly one `SendScopeChange` invocation for the pair during the next
tick; and since the callback wrote and the new scope is true, SERIALIZE is
implicitly set on the same record, so exactly one serialize dispatch for
the pair follows within the same tick whenever the serialize interface is
allowed. -/
theorem claim_C5_set_scope_true_dispatch (calls : List UserCall) (env : ReplicaEnv)
    (t : Nat) (h : Handle) (p : PlayerId) (nid : Nat) (part : ParticipantStruct)
    (ro : RemoteObject) (rr : RegisteredReplica)
    (hpart : partLookup p (run calls initialReplicaManager).participantList = some part)
    (hro : roLookup h part.remoteObjectList = some ro)
    (hreg : regLookup h (run calls initialReplicaManager).replicatedObjects = some rr)
    (hallow : rr.allowedInterfaces &&& REPLICA_SEND_SCOPE_CHANGE ≠ 0)
    (hnid : env.networkId h = some nid)
    (hw : env.sendScopeChangeWrites h = true) :
    countTag (fun t => t == .callSendScopeChangeTrue || t == .callSendScopeChangeFalse)
      h p (OnUpdate env t (SetScope h true p false (run calls initialReplicaManager))).2
      = 1 ∧
    (rr.allowedInterfaces &&& REPLICA_SEND_SERIALIZE ≠ 0 →
      countTag (fun t => t == .callSerialize) h p
        (OnUpdate env t (SetScope h true p false (run calls initialReplicaManager))).2
        = 1) := by
  have hwf := wf_reachable calls
  have hwf1 := @WF_SetScope (run calls initialReplicaManager) h true p false hwf
  have hplayer := (partLookup_mem hpart).2
  have hwpart := hwf.2 part (partLookup_mem hpart).1
  have hsort := hwpart.2.1
  have htarget : isTarget p false part.playerId = true := by simp [isTarget, hplayer]
  -- the queue of participant p after the SetScope call
  have hlk : partLookup p
      (SetScope h true p false (run calls initialReplicaManager)).participantList =
      some { part with
        commandList := cmdEnqueue h REPLICA_SCOPE_TRUE part.commandList } := by
    show partLookup p (enqueueToTargets h REPLICA_SCOPE_TRUE p false
      (ReferencePointer h (run calls initialReplicaManager))).participantList = _
    rw [enqueueToTargets_partLookup]
    show (partLookup p (run calls initialReplicaManager).participantList).map _ = _
    rw [hpart]
    simp only [Option.map_some']
    rw [if_pos htarget]
  -- the registry after the call still holds the record
  have hreg1 : regLookup h
      (SetScope h true p false (run calls initialReplicaManager)).replicatedObjects =
      some rr := by
    show regLookup h (regInsert h (run calls initialReplicaManager).replicatedObjects)
      = some rr
    exact regLookup_regInsert_present hreg
  have hallowOf : allowedOf
      (SetScope h true p false (run calls initialReplicaManager)).replicatedObjects h =
      rr.allowedInterfaces := by
    unfold allowedOf
    rw [hreg1]
  -- the merged record for h
  have hcnew := @cmdLookup_cmdEnqueue_self h REPLICA_SCOPE_TRUE part.commandList hsort
  set newbits : Nat := (match cmdLookup h part.commandList with
    | some c0 => mergeCommand c0.command REPLICA_SCOPE_TRUE
    | none => REPLICA_SCOPE_TRUE) with hnewbits
  have hgood : newbits < 32 ∧ newbits &&& REPLICA_SCOPE_TRUE ≠ 0 := by
    rw [hnewbits]
    cases hc0 : cmdLookup h part.commandList with
    | none => exact ⟨by decide, by decide⟩
    | some c0 =>
      have hg := hwpart.2.2 c0 (cmdLookup_mem hc0).1
      refine ⟨(mergeCommand_goodBits hg (Or.inr (Or.inl rfl))).1, ?_⟩
      exact (bit_facts c0.command hg.1).2.2.2.2
  -- split the tick's events to the record of h at participant p
  have hdist1 : ((cmdEnqueue h REPLICA_SCOPE_TRUE part.commandList).map
      CommandStruct.replica).Pairwise (· ≠ ·) :=
    (cmdEnqueue_pairwise hsort).imp fun hlt => Nat.ne_of_lt hlt
  obtain ⟨m', hm', hcount⟩ := countTag_dispatchList env
    (SetScope h true p false (run calls initialReplicaManager)).defaultScope t
    (SetScope h true p false (run calls initialReplicaManager)).replicatedObjects p
    (fun t => t == .callSendScopeChangeTrue || t == .callSendScopeChangeFalse) h
    (cmdEnqueue h REPLICA_SCOPE_TRUE part.commandList) part.remoteObjectList hdist1
  obtain ⟨m2, hm2, hcount2⟩ := countTag_dispatchList env
    (SetScope h true p false (run calls initialReplicaManager)).defaultScope t
    (SetScope h true p false (run calls initialReplicaManager)).replicatedObjects p
    (fun t => t == .callSerialize) h
    (cmdEnqueue h REPLICA_SCOPE_TRUE part.commandList) part.remoteObjectList hdist1
  have hmain := @dispatchCommand_scope_true_counts env
    (SetScope h true p false (run calls initialReplicaManager)).defaultScope t
    (allowedOf (SetScope h true p false
      (run calls initialReplicaManager)).replicatedObjects h) p
    ⟨h, newbits⟩ m' nid ro hnid (by rw [hm']; exact hro) hgood.1 hgood.2
    (by rw [hallowOf]; exact hallow) hw
  have hmain2 := @dispatchCommand_scope_true_counts env
    (SetScope h true p false (run calls initialReplicaManager)).defaultScope t
    (allowedOf (SetScope h true p false
      (run calls initialReplicaManager)).replicatedObjects h) p
    ⟨h, newbits⟩ m2 nid ro hnid (by rw [hm2]; exact hro) hgood.1 hgood.2
    (by rw [hallowOf]; exact hallow) hw
  constructor
  · rw [countTag_OnUpdate env t _ _ h p hwf1 rfl rfl, hlk]
    dsimp only
    rw [hplayer, hcount, hcnew]
    exact hmain.1
  · intro hallow2
    rw [countTag_OnUpdate env t _ _ h p hwf1 rfl rfl, hlk]
    dsimp only
    rw [hplayer, hcount2, hcnew]
    exact hmain2.2 (by rw [hallowOf]; exact hallow2)

/-- Witness for C5 at a concrete run: after construct and one tick, a
`set_scope(5, true, P1)` yields exactly one scope-change invocation in
the next tick. -/
theorem claim_C5_witness :
    countTag (fun t => t == .callSendScopeChangeTrue || t == .callSendScopeChangeFalse)
      5 1 (OnUpdate envAll42 1 (SetScope 5 true 1 false
        (run [.addParticipant 1, .construct 5 1 false, .tick envAll42 0]
          initialReplicaManager))).2 = 1 :=
  (claim_C5_set_scope_true_dispatch
    [.addParticipant 1, .construct 5 1 false, .tick envAll42 0] envAll42 1 5 1 42
    ((run [.addParticipant 1, .construct 5 1 false, .tick envAll42 0]
      initialReplicaManager).participantList.headD dfltPart)
    ⟨5, false, 0⟩ ⟨5, 0, REPLICA_SET_ALL⟩
    (by decide) (by decide) (by decide) (by decide) rfl rfl).1

/-- C10: for a registered handle, `Destruct` with `UNASSIGNED_PLAYER_ID`
and broadcast true leaves exactly the local state of
`DereferencePointer` — same registry, same queues and mirrors, same
configuration — differing only in that `Destruct` also emits destruction
traffic (every event it produces is a `SendDestruction` invocation or a
DESTRUCT wire record, while dereference emits nothing); and a `Destruct`
issued after the dereference is a no-op, since the pointer reference is
gone. -/
theorem claim_C10_destruct_broadcast_equals_dereference (calls : List UserCall)
    (env env' : ReplicaEnv) (h : Handle) (pid : PlayerId) (bc : Bool)
    (rr : RegisteredReplica)
    (hreg : regLookup h (run calls initialReplicaManager).replicatedObjects = some rr) :
    (Destruct env h UNASSIGNED_PLAYER_ID true (run calls initialReplicaManager)).1 =
      (DereferencePointer h (run calls initialReplicaManager)).1 ∧
    (∀ e ∈ (Destruct env h UNASSIGNED_PLAYER_ID true (run calls initialReplicaManager)).2,
      e.tag = EvTag.callSendDestruction ∨ e.tag = EvTag.wireDestruct) ∧
    (DereferencePointer h (run calls initialReplicaManager)).2 = [] ∧
    Destruct env' h pid bc (DereferencePointer h (run calls initialReplicaManager)).1 =
      ((DereferencePointer h (run calls initialReplicaManager)).1, []) := by
  have hwf := wf_reachable calls
  refine ⟨?_, ?_, rfl, ?_⟩
  · apply ReplicaManager_fields_ext
    · rw [Destruct_registry hreg, if_pos ⟨rfl, rfl⟩]
      rfl
    · rw [Destruct_participantList hreg]
      show _ = (run calls initialReplicaManager).participantList.map (purgeHandle h)
      apply List.map_congr_left
      intro part hmem
      have hne : part.playerId ≠ UNASSIGNED_PLAYER_ID := (hwf.2 part hmem).1
      rw [if_pos (by simp [isTarget, hne])]
      exact destructAtParticipant_fst_eq_purge env h part
    · exact Destruct_config.1
    · exact Destruct_config.2.1
    · exact Destruct_config.2.2.1
    · exact Destruct_config.2.2.2
  · intro e he
    rw [Destruct_evs hreg] at he
    simp only [List.mem_flatten, List.mem_map] at he
    obtain ⟨evs, ⟨part, hpartmem, hevs⟩, hin⟩ := he
    rw [← hevs] at hin
    split at hin
    · rw [destructAtParticipant_evs] at hin
      split at hin
      · simp only [List.mem_cons, List.not_mem_nil, or_false] at hin
        rcases hin with rfl | rfl
        · exact Or.inl rfl
        · exact Or.inr rfl
      · exact absurd hin (List.not_mem_nil e)
    · exact absurd hin (List.not_mem_nil e)
  · have hnone : regLookup h
        (DereferencePointer h (run calls initialReplicaManager)).1.replicatedObjects
        = none := regLookup_filter_self h _
    unfold Destruct
    rw [hnone]

/-- Witness for C10 at a concrete run with two participants. -/
theorem claim_C10_witness :
    (Destruct envAll42 5 UNASSIGNED_PLAYER_ID true
      (run [.addParticipant 1, .addParticipant 2, .construct 5 0 true, .tick envAll42 0]
        initialReplicaManager)).1 =
    (DereferencePointer 5
      (run [.addParticipant 1, .addParticipant 2, .construct 5 0 true, .tick envAll42 0]
        initialReplicaManager)).1 :=
  (claim_C10_destruct_broadcast_equals_dereference
    [.addParticipant 1, .addParticipant 2, .construct 5 0 true, .tick envAll42 0]
    envAll42 envAll42 5 1 false ⟨5, 0, REPLICA_SET_ALL⟩ (by decide)).1
